import Mathlib

/-
Verification of the metroid-prime-extractor decoding core against its
specification.  Bytes are modelled as `List Nat` (each element < 256 where it
matters); big-endian integer reads follow gamecube/src/bytes.rs.  IEEE-754
`f32` values are represented by their raw 32-bit patterns (the code only ever
reinterprets bits with `f32::from_bits` / `to_bits` on the paths verified
here); the single place arithmetic happens on floats (normal renormalisation
for GX vertex formats 1 and 2) is abstracted as an explicit function
parameter, since no claim depends on the numeric value produced there.
-/

namespace MP

/-- Result of a Rust function returning `anyhow::Result`, distinguishing a
returned `Err` (`fail`) from a panic such as `assert!`/`unwrap` (`crash`). -/
inductive RRes (α : Type) where
  | ok : α → RRes α
  | fail : RRes α
  | crash : RRes α
deriving DecidableEq

/- ----------------------------------------------------------------------
gamecube/src/bytes.rs: big-endian primitive reads over an in-memory stream.
A short read is an io error (`Truncated`); where a claim does not need to
distinguish error returns from panics the Option-valued readers are used. -/

def read_u8 : List Nat → Option (Nat × List Nat)
  | [] => none
  | b :: r => some (b, r)

def read_u16 (r : List Nat) : Option (Nat × List Nat) :=
  match read_u8 r with
  | none => none
  | some (b0, r) =>
    match read_u8 r with
    | none => none
    | some (b1, r) => some (256 * b0 + b1, r)

def read_u32 (r : List Nat) : Option (Nat × List Nat) :=
  match read_u16 r with
  | none => none
  | some (h, r) =>
    match read_u16 r with
    | none => none
    | some (l, r) => some (65536 * h + l, r)

/-- `read_u32` in the `RRes` flavour used by the pak/cskr decoders. -/
def read_u32R (r : List Nat) : RRes (Nat × List Nat) :=
  match read_u32 r with
  | none => RRes.fail
  | some v => RRes.ok v

/- ----------------------------------------------------------------------
gamecube/src/bytes.rs, read_fixed_capacity_ascii_c_string: read exactly
`len` bytes, then scan them: stop at the first zero byte, fail on the first
non-ASCII (≥ 0x80) byte before it.  The string is modelled as the list of
its byte values. -/

inductive CStrResult where
  | truncated : CStrResult
  | nonAscii (rest : List Nat) : CStrResult
  | ok (s : List Nat) (rest : List Nat) : CStrResult
deriving DecidableEq

/-- The `scan`/`collect` phase: bytes before the first zero are collected,
a non-ASCII byte before the first zero aborts with an error. -/
def ascii_scan : List Nat → Option (List Nat)
  | [] => some []
  | b :: bs =>
    if b = 0 then some []
    else if b < 128 then (ascii_scan bs).map (fun s => b :: s)
    else none

def read_fixed_capacity_ascii_c_string (len : Nat) (r : List Nat) : CStrResult :=
  if r.length < len then CStrResult.truncated
  else
    match ascii_scan (r.take len) with
    | some s => CStrResult.ok s (r.drop len)
    | none => CStrResult.nonAscii (r.drop len)

/- ----------------------------------------------------------------------
metroid-prime/src/gx.rs: the vertex-cache display-list decoder.  An `f32`
is its raw 32-bit pattern (a `Nat`); `[f32; 3]` and `[f32; 2]` become
tuples of patterns.  The decoder is generic over the joint/weight attribute
types exactly as the Rust code is generic over `VertexDescriptor`. -/

/-- One decoded vertex record as passed to `VertexHandler::handle_vertex`. -/
structure Vtx (J W : Type) where
  position : Nat × Nat × Nat
  normal : Nat × Nat × Nat
  texcoord : Option (Nat × Nat)
  bone_id : J
  weight : W
deriving DecidableEq

instance (J W : Type) [Inhabited J] [Inhabited W] : Inhabited (Vtx J W) :=
  ⟨⟨(0, 0, 0), (0, 0, 0), none, default, default⟩⟩

/-- Decoder output: parallel arrays of fully expanded triangles. -/
structure Batch (J W : Type) where
  positions : List (Nat × Nat × Nat)
  normals : List (Nat × Nat × Nat)
  texcoords : List (Nat × Nat)
  bone_ids : List J
  weights : List W
deriving DecidableEq

/-- State of the `Triangles` (triangle list) vertex handler.
`state`: 0 = empty buffer, 1 = one buffered vertex, 2 = two buffered. -/
structure Triangles (J W : Type) where
  positions : List (Nat × Nat × Nat)
  normals : List (Nat × Nat × Nat)
  texcoords : List (Nat × Nat)
  bone_ids : List J
  weights : List W
  position_a : Nat × Nat × Nat
  position_b : Nat × Nat × Nat
  normal_a : Nat × Nat × Nat
  normal_b : Nat × Nat × Nat
  texcoord_a : Nat × Nat
  texcoord_b : Nat × Nat
  bone_id_a : J
  bone_id_b : J
  weight_a : W
  weight_b : W
  state : Nat

def Triangles.new (J W : Type) [Inhabited J] [Inhabited W] : Triangles J W :=
  ⟨[], [], [], [], [], (0, 0, 0), (0, 0, 0), (0, 0, 0), (0, 0, 0), (0, 0), (0, 0),
    default, default, default, default, 0⟩

def Triangles.handle_vertex {J W : Type} (s : Triangles J W) (v : Vtx J W) : Triangles J W :=
  match s.state with
  | 0 =>
    { s with position_a := v.position, normal_a := v.normal,
             texcoord_a := v.texcoord.getD s.texcoord_a,
             bone_id_a := v.bone_id, weight_a := v.weight, state := 1 }
  | 1 =>
    { s with position_b := v.position, normal_b := v.normal,
             texcoord_b := v.texcoord.getD s.texcoord_b,
             bone_id_b := v.bone_id, weight_b := v.weight, state := 2 }
  | 2 =>
    { s with
      positions := s.positions ++ [s.position_a, s.position_b, v.position],
      normals := s.normals ++ [s.normal_a, s.normal_b, v.normal],
      texcoords := match v.texcoord with
        | some t => s.texcoords ++ [s.texcoord_a, s.texcoord_b, t]
        | none => s.texcoords,
      bone_ids := s.bone_ids ++ [s.bone_id_a, s.bone_id_b, v.bone_id],
      weights := s.weights ++ [s.weight_a, s.weight_b, v.weight],
      state := 0 }
  | _ => s  -- unreachable from `new` (Rust: unreachable!())

/-- `Triangles::finish` asserts the buffer is empty; the assert panic on a
stream that stops mid-triplet is modelled as `none`. -/
def Triangles.finish {J W : Type} (s : Triangles J W) : Option (Batch J W) :=
  if s.state = 0 then some ⟨s.positions, s.normals, s.texcoords, s.bone_ids, s.weights⟩
  else none

/-- State of the `TriangleStrip` vertex handler.
`state`: 0 = empty, 1 = one buffered, 2 = two buffered even parity,
3 = two buffered odd parity. -/
structure TriangleStrip (J W : Type) where
  positions : List (Nat × Nat × Nat)
  normals : List (Nat × Nat × Nat)
  texcoords : List (Nat × Nat)
  bone_ids : List J
  weights : List W
  position_a : Nat × Nat × Nat
  position_b : Nat × Nat × Nat
  normal_a : Nat × Nat × Nat
  normal_b : Nat × Nat × Nat
  texcoord_a : Nat × Nat
  texcoord_b : Nat × Nat
  bone_id_a : J
  bone_id_b : J
  weight_a : W
  weight_b : W
  state : Nat

def TriangleStrip.new (J W : Type) [Inhabited J] [Inhabited W] : TriangleStrip J W :=
  ⟨[], [], [], [], [], (0, 0, 0), (0, 0, 0), (0, 0, 0), (0, 0, 0), (0, 0), (0, 0),
    default, default, default, default, 0⟩

def TriangleStrip.shift {J W : Type} (s : TriangleStrip J W) (v : Vtx J W) : TriangleStrip J W :=
  { s with
    position_a := s.position_b, normal_a := s.normal_b, texcoord_a := s.texcoord_b,
    bone_id_a := s.bone_id_b, weight_a := s.weight_b,
    position_b := v.position, normal_b := v.normal,
    texcoord_b := v.texcoord.getD s.texcoord_b,
    bone_id_b := v.bone_id, weight_b := v.weight }

def TriangleStrip.handle_vertex {J W : Type} (s : TriangleStrip J W) (v : Vtx J W) :
    TriangleStrip J W :=
  match s.state with
  | 0 =>
    { s with position_a := v.position, normal_a := v.normal,
             texcoord_a := v.texcoord.getD s.texcoord_a,
             bone_id_a := v.bone_id, weight_a := v.weight, state := 1 }
  | 1 =>
    { s with position_b := v.position, normal_b := v.normal,
             texcoord_b := v.texcoord.getD s.texcoord_b,
             bone_id_b := v.bone_id, weight_b := v.weight, state := 2 }
  | 2 =>
    { (TriangleStrip.shift
        { s with
          positions := s.positions ++ [s.position_a, s.position_b, v.position],
          normals := s.normals ++ [s.normal_a, s.normal_b, v.normal],
          texcoords := match v.texcoord with
            | some t => s.texcoords ++ [s.texcoord_a, s.texcoord_b, t]
            | none => s.texcoords,
          bone_ids := s.bone_ids ++ [s.bone_id_a, s.bone_id_b, v.bone_id],
          weights := s.weights ++ [s.weight_a, s.weight_b, v.weight] } v)
      with state := 3 }
  | 3 =>
    { (TriangleStrip.shift
        { s with
          positions := s.positions ++ [s.position_b, s.position_a, v.position],
          normals := s.normals ++ [s.normal_b, s.normal_a, v.normal],
          texcoords := match v.texcoord with
            | some t => s.texcoords ++ [s.texcoord_b, s.texcoord_a, t]
            | none => s.texcoords,
          bone_ids := s.bone_ids ++ [s.bone_id_b, s.bone_id_a, v.bone_id],
          weights := s.weights ++ [s.weight_b, s.weight_a, v.weight] } v)
      with state := 2 }
  | _ => s  -- unreachable from `new` (Rust: unreachable!())

def TriangleStrip.finish {J W : Type} (s : TriangleStrip J W) : Batch J W :=
  ⟨s.positions, s.normals, s.texcoords, s.bone_ids, s.weights⟩

/-- State of the `TriangleFan` vertex handler.
`state`: 0 = empty, 1 = one buffered (the pivot), 2 = two buffered. -/
structure TriangleFan (J W : Type) where
  positions : List (Nat × Nat × Nat)
  normals : List (Nat × Nat × Nat)
  texcoords : List (Nat × Nat)
  bone_ids : List J
  weights : List W
  position_a : Nat × Nat × Nat
  position_b : Nat × Nat × Nat
  normal_a : Nat × Nat × Nat
  normal_b : Nat × Nat × Nat
  texcoord_a : Nat × Nat
  texcoord_b : Nat × Nat
  bone_id_a : J
  bone_id_b : J
  weight_a : W
  weight_b : W
  state : Nat

def TriangleFan.new (J W : Type) [Inhabited J] [Inhabited W] : TriangleFan J W :=
  ⟨[], [], [], [], [], (0, 0, 0), (0, 0, 0), (0, 0, 0), (0, 0, 0), (0, 0), (0, 0),
    default, default, default, default, 0⟩

/-- `TriangleFan::shift` only replaces the second buffered vertex; the pivot
(`_a` fields) never changes. -/
def TriangleFan.shift {J W : Type} (s : TriangleFan J W) (v : Vtx J W) : TriangleFan J W :=
  { s with
    position_b := v.position, normal_b := v.normal,
    texcoord_b := v.texcoord.getD s.texcoord_b,
    bone_id_b := v.bone_id, weight_b := v.weight }

def TriangleFan.handle_vertex {J W : Type} (s : TriangleFan J W) (v : Vtx J W) :
    TriangleFan J W :=
  match s.state with
  | 0 =>
    { s with position_a := v.position, normal_a := v.normal,
             texcoord_a := v.texcoord.getD s.texcoord_a,
             bone_id_a := v.bone_id, weight_a := v.weight, state := 1 }
  | 1 => { (TriangleFan.shift s v) with state := 2 }
  | 2 =>
    TriangleFan.shift
      { s with
        positions := s.positions ++ [s.position_a, s.position_b, v.position],
        normals := s.normals ++ [s.normal_a, s.normal_b, v.normal],
        texcoords := match v.texcoord with
          | some t => s.texcoords ++ [s.texcoord_a, s.texcoord_b, t]
          | none => s.texcoords,
        bone_ids := s.bone_ids ++ [s.bone_id_a, s.bone_id_b, v.bone_id],
        weights := s.weights ++ [s.weight_a, s.weight_b, v.weight] } v
  | _ => s  -- unreachable from `new` (Rust: unreachable!())

def TriangleFan.finish {J W : Type} (s : TriangleFan J W) : Batch J W :=
  ⟨s.positions, s.normals, s.texcoords, s.bone_ids, s.weights⟩

/-- Positions emitted by a triangle strip continuing from a buffered pair
`(a, b)` with parity `par` (false = state 2, true = state 3) over the
remaining vertices: characterises the source loop, used in proofs. -/
def strip_flat (par : Bool) (a b : Nat × Nat × Nat) :
    List (Nat × Nat × Nat) → List (Nat × Nat × Nat)
  | [] => []
  | c :: rest => (if par then [b, a, c] else [a, b, c]) ++ strip_flat (!par) b c rest

/-- Whether strip triangle `i` is emitted with its buffered pair swapped,
starting from parity `par`. -/
def strip_swapped : Bool → Nat → Bool
  | par, 0 => par
  | par, i + 1 => strip_swapped (!par) i

/-- Positions emitted by a triangle fan with pivot `piv` and buffered second
vertex `b` over the remaining vertices: characterises the source loop. -/
def fan_flat (piv b : Nat × Nat × Nat) :
    List (Nat × Nat × Nat) → List (Nat × Nat × Nat)
  | [] => []
  | c :: rest => [piv, b, c] ++ fan_flat piv c rest

/-- Three consecutive big-endian u32 reads (a 12-byte attribute record). -/
def read_u32x3 (l : List Nat) : Option (Nat × Nat × Nat) :=
  match read_u32 l with
  | none => none
  | some (x, l) =>
    match read_u32 l with
    | none => none
    | some (y, l) =>
      match read_u32 l with
      | none => none
      | some (z, _) => some (x, y, z)

/-- Three consecutive big-endian u16 reads (a 6-byte packed normal record). -/
def read_u16x3 (l : List Nat) : Option (Nat × Nat × Nat) :=
  match read_u16 l with
  | none => none
  | some (x, l) =>
    match read_u16 l with
    | none => none
    | some (y, l) =>
      match read_u16 l with
      | none => none
      | some (z, _) => some (x, y, z)

/-- Two consecutive big-endian u32 reads (an 8-byte texcoord record). -/
def read_u32x2 (l : List Nat) : Option (Nat × Nat) :=
  match read_u32 l with
  | none => none
  | some (s, l) =>
    match read_u32 l with
    | none => none
    | some (t, _) => some (s, t)

/-- `VertexAttribute::get` for the unit attribute `()`: always succeeds. -/
def unit_attr_get : Nat → Option Unit := fun _ => some ()

/-- `VertexAttribute::get` for the slice-backed attributes (`u32`/`f32`):
`data[index]`, panicking (= `none`) out of bounds. -/
def slice_attr_get (data : List Nat) : Nat → Option Nat := fun i => data.get? i

/-- The normal block of a vertex record: vertex format 0 reads an index into
the 12-byte-stride f32 table; formats 1 and 2 read an index into the
6-byte-stride packed i16 table and renormalise (abstracted as `normalize`);
other formats are unreachable behind the vertex-format assert. -/
def read_normal (vertex_format : Nat) (normal_data : List Nat)
    (normalize : Nat → Nat → Nat → Nat × Nat × Nat) (r : List Nat) :
    Option ((Nat × Nat × Nat) × List Nat) :=
  match vertex_format with
  | 0 => do
    let (nidx, r) ← read_u16 r
    let n ← read_u32x3 (normal_data.drop (nidx * 12))
    pure (n, r)
  | 1 | 2 => do
    let (nidx, r) ← read_u16 r
    let (x, y, z) ← read_u16x3 (normal_data.drop (nidx * 6))
    pure (normalize x y z, r)
  | _ => none

/-- The Tex 0 block of a vertex record: present exactly when the uv0 bits
0x300 are set; vertex format 2 (uv-short coordinates) is `unimplemented!()`. -/
def read_tex0 (vertex_format vertex_attr_flags : Nat) (uv_float_data : List Nat)
    (r : List Nat) : Option (Option (Nat × Nat) × List Nat) :=
  if vertex_attr_flags &&& 0x300 ≠ 0 then
    match vertex_format with
    | 0 | 1 => do
      let (tidx, r) ← read_u16 r
      let st ← read_u32x2 (uv_float_data.drop (tidx * 8))
      pure (some st, r)
    | _ => none
  else pure (none, r)

/-- The Tex 1 / Tex 2 blocks of a vertex record: when the corresponding
attribute bits are set the 16-bit index is read and discarded (source TODO). -/
def skip_index (mask vertex_attr_flags : Nat) (r : List Nat) : Option (List Nat) :=
  if vertex_attr_flags &&& mask ≠ 0 then (read_u16 r).map Prod.snd else pure r

/-- One vertex record of `DisplayList::parse_batch` (gx.rs lines 141-227).
`normalize` abstracts the IEEE-754 renormalisation of the packed i16 normal
of vertex formats 1 and 2 (`(x*x+y*y+z*z).sqrt().recip()` scaling); it is an
arbitrary function of the three raw 16-bit values, since no verified claim
depends on the numeric normal value.  `unimplemented!()` attribute
combinations and assertion failures are modelled as `none`. -/
def parse_vertex {J W : Type} (vertex_format vertex_attr_flags : Nat)
    (position_data normal_data uv_float_data : List Nat)
    (getJ : Nat → Option J) (getW : Nat → Option W)
    (normalize : Nat → Nat → Nat → Nat × Nat × Nat)
    (r : List Nat) : Option (Vtx J W × List Nat) := do
  -- Position: assert!((vertex_attr_flags & 0x3) != 0)
  if vertex_attr_flags &&& 0x3 = 0 then none else
  let (pidx, r) ← read_u16 r
  let position ← read_u32x3 (position_data.drop (pidx * 12))
  let bone_id ← getJ pidx
  let weight ← getW pidx
  -- Normal: assert!((vertex_attr_flags & 0xc) != 0)
  if vertex_attr_flags &&& 0xc = 0 then none else
  let (normal, r) ← read_normal vertex_format normal_data normalize r
  -- Color 0 / Color 1: unimplemented!()
  if vertex_attr_flags &&& 0x30 ≠ 0 then none else
  if vertex_attr_flags &&& 0xc0 ≠ 0 then none else
  -- Tex 0
  let (texcoord, r) ← read_tex0 vertex_format vertex_attr_flags uv_float_data r
  -- Tex 1 and Tex 2
  let r ← skip_index 0xc00 vertex_attr_flags r
  let r ← skip_index 0x3000 vertex_attr_flags r
  -- Tex 3 .. Tex 6: unimplemented!()
  if vertex_attr_flags &&& 0xc000 ≠ 0 then none else
  if vertex_attr_flags &&& 0x30000 ≠ 0 then none else
  if vertex_attr_flags &&& 0xc0000 ≠ 0 then none else
  if vertex_attr_flags &&& 0x300000 ≠ 0 then none else
  pure (⟨position, normal, texcoord, bone_id, weight⟩, r)

/-- The `for _ in 0..count` vertex loop of `parse_batch`, threading the
vertex handler state `s` (generic over the handler as the Rust code is). -/
def parse_batch_loop {J W S : Type} (step : S → Vtx J W → S)
    (vertex_format vertex_attr_flags : Nat)
    (position_data normal_data uv_float_data : List Nat)
    (getJ : Nat → Option J) (getW : Nat → Option W)
    (normalize : Nat → Nat → Nat → Nat × Nat × Nat) :
    Nat → S → List Nat → Option (S × List Nat)
  | 0, s, r => some (s, r)
  | count + 1, s, r =>
    match parse_vertex vertex_format vertex_attr_flags position_data normal_data
        uv_float_data getJ getW normalize r with
    | none => none
    | some (v, r) =>
      parse_batch_loop step vertex_format vertex_attr_flags position_data normal_data
        uv_float_data getJ getW normalize count (step s v) r

/-- `DisplayList::parse_batch`: vertex-format assert, u16 vertex count, the
vertex loop, then the handler's `finish`. -/
def parse_batch {J W S : Type} (step : S → Vtx J W → S) (fin : S → Option (Batch J W))
    (s0 : S) (vertex_format vertex_attr_flags : Nat)
    (position_data normal_data uv_float_data : List Nat)
    (getJ : Nat → Option J) (getW : Nat → Option W)
    (normalize : Nat → Nat → Nat → Nat × Nat × Nat)
    (r : List Nat) : Option (Batch J W × List Nat) :=
  if vertex_format > 2 then none  -- assert!((0..=2).contains(&vertex_format))
  else
    match read_u16 r with
    | none => none
    | some (count, r) =>
      match parse_batch_loop step vertex_format vertex_attr_flags position_data
          normal_data uv_float_data getJ getW normalize count s0 r with
      | none => none
      | some (s, r) =>
        match fin s with
        | none => none
        | some b => some (b, r)

/- Stream-consumption facts, needed to justify termination of the opcode
loop of `DisplayList::parse` below. -/

theorem read_u8_length {r : List Nat} {b : Nat} {r' : List Nat}
    (h : read_u8 r = some (b, r')) : r'.length + 1 = r.length := by
  cases r with
  | nil => simp [read_u8] at h
  | cons a t =>
    simp [read_u8] at h
    obtain ⟨-, rfl⟩ := h
    simp

theorem read_u16_length {r : List Nat} {x : Nat} {r' : List Nat}
    (h : read_u16 r = some (x, r')) : r'.length + 2 = r.length := by
  unfold read_u16 at h
  cases h1 : read_u8 r with
  | none => rw [h1] at h; simp at h
  | some a =>
    obtain ⟨b0, r1⟩ := a
    rw [h1] at h
    dsimp only at h
    cases h2 : read_u8 r1 with
    | none => rw [h2] at h; simp at h
    | some a2 =>
      obtain ⟨b1, r2⟩ := a2
      rw [h2] at h
      simp at h
      obtain ⟨-, rfl⟩ := h
      have e1 := read_u8_length h1
      have e2 := read_u8_length h2
      omega

theorem read_u32_length {r : List Nat} {x : Nat} {r' : List Nat}
    (h : read_u32 r = some (x, r')) : r'.length + 4 = r.length := by
  unfold read_u32 at h
  cases h1 : read_u16 r with
  | none => rw [h1] at h; simp at h
  | some a =>
    obtain ⟨w0, r1⟩ := a
    rw [h1] at h
    dsimp only at h
    cases h2 : read_u16 r1 with
    | none => rw [h2] at h; simp at h
    | some a2 =>
      obtain ⟨w1, r2⟩ := a2
      rw [h2] at h
      simp at h
      obtain ⟨-, rfl⟩ := h
      have e1 := read_u16_length h1
      have e2 := read_u16_length h2
      omega

theorem read_normal_le {vf : Nat} {nd : List Nat}
    {normalize : Nat → Nat → Nat → Nat × Nat × Nat} {r : List Nat}
    {n : Nat × Nat × Nat} {r' : List Nat}
    (h : read_normal vf nd normalize r = some (n, r')) : r'.length ≤ r.length := by
  unfold read_normal at h
  rcases vf with _ | _ | _ | vf
  · simp only [bind, Option.bind_eq_some] at h
    obtain ⟨⟨nidx, r1⟩, hr1, h⟩ := h
    obtain ⟨nv, hnv, h⟩ := h
    simp [pure] at h
    obtain ⟨-, rfl⟩ := h
    have := read_u16_length hr1
    omega
  · simp only [bind, Option.bind_eq_some] at h
    obtain ⟨⟨nidx, r1⟩, hr1, h⟩ := h
    obtain ⟨⟨x, y, z⟩, hnv, h⟩ := h
    simp [pure] at h
    obtain ⟨-, rfl⟩ := h
    have := read_u16_length hr1
    omega
  · simp only [bind, Option.bind_eq_some] at h
    obtain ⟨⟨nidx, r1⟩, hr1, h⟩ := h
    obtain ⟨⟨x, y, z⟩, hnv, h⟩ := h
    simp [pure] at h
    obtain ⟨-, rfl⟩ := h
    have := read_u16_length hr1
    omega
  · simp at h

theorem read_tex0_spec {vf flags : Nat} {uvd : List Nat} {r : List Nat}
    {t : Option (Nat × Nat)} {r' : List Nat}
    (h : read_tex0 vf flags uvd r = some (t, r')) :
    r'.length ≤ r.length ∧ t.isSome = decide (flags &&& 0x300 ≠ 0) := by
  unfold read_tex0 at h
  by_cases h3 : flags &&& 0x300 ≠ 0
  · rw [if_pos h3] at h
    rcases vf with _ | _ | vf
    · simp only [bind, Option.bind_eq_some] at h
      obtain ⟨⟨tidx, r1⟩, hr1, h⟩ := h
      obtain ⟨st, hst, h⟩ := h
      simp [pure] at h
      obtain ⟨rfl, rfl⟩ := h
      have := read_u16_length hr1
      refine ⟨by omega, by simp [h3]⟩
    · simp only [bind, Option.bind_eq_some] at h
      obtain ⟨⟨tidx, r1⟩, hr1, h⟩ := h
      obtain ⟨st, hst, h⟩ := h
      simp [pure] at h
      obtain ⟨rfl, rfl⟩ := h
      have := read_u16_length hr1
      refine ⟨by omega, by simp [h3]⟩
    · simp at h
  · rw [if_neg h3] at h
    simp [pure] at h
    obtain ⟨rfl, rfl⟩ := h
    refine ⟨le_refl _, by simp [h3]⟩

theorem skip_index_le {mask flags : Nat} {r r' : List Nat}
    (h : skip_index mask flags r = some r') : r'.length ≤ r.length := by
  unfold skip_index at h
  by_cases hx : flags &&& mask ≠ 0
  · rw [if_pos hx] at h
    simp only [Option.map_eq_some'] at h
    obtain ⟨a, ha, h2⟩ := h
    have h3 := read_u16_length ha
    subst h2
    omega
  · rw [if_neg hx] at h
    simp [pure] at h
    subst h
    exact le_refl _

theorem parse_vertex_spec {J W : Type} {vf flags : Nat} {pd nd uvd : List Nat}
    {getJ : Nat → Option J} {getW : Nat → Option W}
    {normalize : Nat → Nat → Nat → Nat × Nat × Nat} {r : List Nat}
    {v : Vtx J W} {r' : List Nat}
    (h : parse_vertex vf flags pd nd uvd getJ getW normalize r = some (v, r')) :
    r'.length ≤ r.length ∧ v.texcoord.isSome = decide (flags &&& 0x300 ≠ 0) := by
  unfold parse_vertex at h
  by_cases h1 : flags &&& 0x3 = 0
  · rw [if_pos h1] at h; simp at h
  rw [if_neg h1] at h
  simp only [bind, Option.bind_eq_some] at h
  obtain ⟨⟨pidx, r1⟩, hr1, h⟩ := h
  obtain ⟨pos, hpos, h⟩ := h
  obtain ⟨j, hj, h⟩ := h
  obtain ⟨w, hw, h⟩ := h
  by_cases h2 : flags &&& 0xc = 0
  · rw [if_pos h2] at h; simp at h
  rw [if_neg h2] at h
  simp only [bind, Option.bind_eq_some] at h
  obtain ⟨⟨normal, r2⟩, hn, h⟩ := h
  by_cases h4 : flags &&& 0x30 ≠ 0
  · rw [if_pos h4] at h; simp at h
  rw [if_neg h4] at h
  by_cases h5 : flags &&& 0xc0 ≠ 0
  · rw [if_pos h5] at h; simp at h
  rw [if_neg h5] at h
  simp only [bind, Option.bind_eq_some] at h
  obtain ⟨⟨texcoord, r3⟩, ht, h⟩ := h
  dsimp only at h
  obtain ⟨r4, hr4, h⟩ := h
  obtain ⟨r5, hr5, h⟩ := h
  by_cases h6 : flags &&& 0xc000 ≠ 0
  · rw [if_pos h6] at h; simp at h
  rw [if_neg h6] at h
  by_cases h7 : flags &&& 0x30000 ≠ 0
  · rw [if_pos h7] at h; simp at h
  rw [if_neg h7] at h
  by_cases h8 : flags &&& 0xc0000 ≠ 0
  · rw [if_pos h8] at h; simp at h
  rw [if_neg h8] at h
  by_cases h9 : flags &&& 0x300000 ≠ 0
  · rw [if_pos h9] at h; simp at h
  rw [if_neg h9] at h
  simp [pure] at h
  obtain ⟨rfl, rfl⟩ := h
  have e1 := read_u16_length hr1
  have e2 := read_normal_le hn
  have e3 := read_tex0_spec ht
  have e4 := skip_index_le hr4
  have e5 := skip_index_le hr5
  exact ⟨by omega, e3.2⟩

theorem parse_batch_loop_le {J W S : Type} {step : S → Vtx J W → S}
    {vf flags : Nat} {pd nd uvd : List Nat}
    {getJ : Nat → Option J} {getW : Nat → Option W}
    {normalize : Nat → Nat → Nat → Nat × Nat × Nat} :
    ∀ {count : Nat} {s : S} {r : List Nat} {s' : S} {r' : List Nat},
      parse_batch_loop step vf flags pd nd uvd getJ getW normalize count s r
        = some (s', r') → r'.length ≤ r.length := by
  intro count
  induction count with
  | zero =>
    intro s r s' r' h
    simp [parse_batch_loop] at h
    obtain ⟨-, rfl⟩ := h
    exact le_refl _
  | succ n ih =>
    intro s r s' r' h
    rw [parse_batch_loop] at h
    cases hv : parse_vertex vf flags pd nd uvd getJ getW normalize r with
    | none => rw [hv] at h; simp at h
    | some a =>
      obtain ⟨v, r1⟩ := a
      rw [hv] at h
      have := (parse_vertex_spec hv).1
      have := ih h
      omega

theorem parse_batch_le {J W S : Type} {step : S → Vtx J W → S}
    {fin : S → Option (Batch J W)} {s0 : S} {vf flags : Nat} {pd nd uvd : List Nat}
    {getJ : Nat → Option J} {getW : Nat → Option W}
    {normalize : Nat → Nat → Nat → Nat × Nat × Nat} {r : List Nat}
    {b : Batch J W} {r' : List Nat}
    (h : parse_batch step fin s0 vf flags pd nd uvd getJ getW normalize r
      = some (b, r')) : r'.length ≤ r.length := by
  unfold parse_batch at h
  by_cases h1 : vf > 2
  · rw [if_pos h1] at h; simp at h
  rw [if_neg h1] at h
  cases h2 : read_u16 r with
  | none => rw [h2] at h; simp at h
  | some a =>
    obtain ⟨count, r1⟩ := a
    rw [h2] at h
    dsimp only at h
    cases h3 : parse_batch_loop step vf flags pd nd uvd getJ getW normalize count s0 r1 with
    | none => rw [h3] at h; simp at h
    | some a2 =>
      obtain ⟨s1, r2⟩ := a2
      rw [h3] at h
      dsimp only at h
      cases h4 : fin s1 with
      | none => rw [h4] at h; simp at h
      | some b2 =>
        rw [h4] at h
        dsimp only at h
        simp at h
        obtain ⟨-, rfl⟩ := h
        have := parse_batch_loop_le h3
        have := read_u16_length h2
        omega

/-- `DisplayList::parse` (gx.rs lines 60-119): the opcode loop.  A zero
opcode terminates; opcodes 0x90/0x98/0xa0 decode a triangles / strip / fan
batch; anything else is an error.  Recursion is on the stream, which each
iteration strictly shrinks (the opcode byte). -/
def display_list_parse (J W : Type) [Inhabited J] [Inhabited W]
    (vertex_attr_flags : Nat) (position_data normal_data uv_float_data : List Nat)
    (getJ : Nat → Option J) (getW : Nat → Option W)
    (normalize : Nat → Nat → Nat → Nat × Nat × Nat)
    (r : List Nat) : Option (List (Batch J W)) :=
  match h : read_u8 r with
  | none => none
  | some (opcode, r1) =>
    if opcode = 0 then some []
    else
      let primitive_type := opcode &&& 0xf8
      let vertex_format := opcode &&& 0x07
      if primitive_type = 0x90 then
        match hb : parse_batch Triangles.handle_vertex Triangles.finish
            (Triangles.new J W) vertex_format vertex_attr_flags position_data
            normal_data uv_float_data getJ getW normalize r1 with
        | none => none
        | some (b, r2) =>
          match display_list_parse J W vertex_attr_flags position_data normal_data
              uv_float_data getJ getW normalize r2 with
          | none => none
          | some bs => some (b :: bs)
      else if primitive_type = 0x98 then
        match hb : parse_batch TriangleStrip.handle_vertex
            (fun s => some (TriangleStrip.finish s))
            (TriangleStrip.new J W) vertex_format vertex_attr_flags position_data
            normal_data uv_float_data getJ getW normalize r1 with
        | none => none
        | some (b, r2) =>
          match display_list_parse J W vertex_attr_flags position_data normal_data
              uv_float_data getJ getW normalize r2 with
          | none => none
          | some bs => some (b :: bs)
      else if primitive_type = 0xa0 then
        match hb : parse_batch TriangleFan.handle_vertex
            (fun s => some (TriangleFan.finish s))
            (TriangleFan.new J W) vertex_format vertex_attr_flags position_data
            normal_data uv_float_data getJ getW normalize r1 with
        | none => none
        | some (b, r2) =>
          match display_list_parse J W vertex_attr_flags position_data normal_data
              uv_float_data getJ getW normalize r2 with
          | none => none
          | some bs => some (b :: bs)
      else none
termination_by r.length
decreasing_by
  all_goals
    have e1 := read_u8_length h
    have e2 := parse_batch_le hb
    omega

/-- Parallel-array invariant of a triangle-list handler state, relative to
whether the uv0 attribute is present (`uv`). -/
def tri_inv {J W : Type} (uv : Bool) (s : Triangles J W) : Prop :=
  s.normals.length = s.positions.length ∧ s.bone_ids.length = s.positions.length ∧
  s.weights.length = s.positions.length ∧ s.positions.length % 3 = 0 ∧
  s.texcoords.length = cond uv s.positions.length 0

/-- Parallel-array invariant of a triangle-strip handler state. -/
def strip_inv {J W : Type} (uv : Bool) (s : TriangleStrip J W) : Prop :=
  s.normals.length = s.positions.length ∧ s.bone_ids.length = s.positions.length ∧
  s.weights.length = s.positions.length ∧ s.positions.length % 3 = 0 ∧
  s.texcoords.length = cond uv s.positions.length 0

/-- Parallel-array invariant of a triangle-fan handler state. -/
def fan_inv {J W : Type} (uv : Bool) (s : TriangleFan J W) : Prop :=
  s.normals.length = s.positions.length ∧ s.bone_ids.length = s.positions.length ∧
  s.weights.length = s.positions.length ∧ s.positions.length % 3 = 0 ∧
  s.texcoords.length = cond uv s.positions.length 0

/-- Parallel-array invariant of a decoded batch. -/
def batch_inv {J W : Type} (uv : Bool) (b : Batch J W) : Prop :=
  b.normals.length = b.positions.length ∧ b.bone_ids.length = b.positions.length ∧
  b.weights.length = b.positions.length ∧ b.positions.length % 3 = 0 ∧
  b.texcoords.length = cond uv b.positions.length 0

/-- Concrete display list used as a witness input: one triangles batch of
three vertices (position and normal attributes), then the terminator. -/
def c9dl : List Nat := [0x90, 0, 3, 0, 0, 0, 0, 0, 0, 0, 0, 0, 0, 0, 0, 0]

/-- A 12-byte all-zero attribute table (one position / one f32 normal). -/
def c9pd : List Nat := List.replicate 12 0

/-- The batch decoded from `c9dl`. -/
def c9batch : Batch Unit Unit :=
  ⟨[(0, 0, 0), (0, 0, 0), (0, 0, 0)], [(0, 0, 0), (0, 0, 0), (0, 0, 0)], [],
   [(), (), ()], [(), (), ()]⟩

/-- Concrete four-vertex run used as a witness input. -/
def c1vs : List (Vtx Unit Unit) :=
  [⟨(1, 2, 3), (0, 0, 0), none, (), ()⟩,
   ⟨(4, 5, 6), (0, 0, 0), none, (), ()⟩,
   ⟨(7, 8, 9), (0, 0, 0), none, (), ()⟩,
   ⟨(10, 11, 12), (0, 0, 0), none, (), ()⟩]

/- ----------------------------------------------------------------------
metroid-prime/src/txtr.rs: the pixel codec.  Each dump function decodes a
tiled payload into a flat RGBA byte raster (the output list holds 4 bytes
per pixel, row by row, in the order the source pushes them; the PNG
encoding that follows in the source is an external collaborator and is not
modelled).  The unused mip-count argument is dropped.  Slice indexing that
would panic out of bounds is `none`. -/

/-- 5-to-8-bit channel extension `(x << 3) | (x >> 2)` (decode_rgb565). -/
def extend5 (x : Nat) : Nat := (x <<< 3) ||| (x >>> 2)

/-- 6-to-8-bit channel extension `(x << 2) | (x >> 4)` (decode_rgb565). -/
def extend6 (x : Nat) : Nat := (x <<< 2) ||| (x >>> 4)

/-- 4-to-8-bit channel extension `(x << 4) | x` (decode_rgb5a3). -/
def extend4 (x : Nat) : Nat := (x <<< 4) ||| x

/-- 3-to-8-bit channel extension `(x << 5) | (x << 2) | (x >> 1)`
(decode_rgb5a3). -/
def extend3 (x : Nat) : Nat := ((x <<< 5) ||| (x <<< 2)) ||| (x >>> 1)

/-- RGB565 → RGBA bytes `[r, g, b, 255]`. -/
def decode_rgb565 (encoded : Nat) : List Nat :=
  [extend5 ((encoded >>> 11) &&& 0x1f), extend6 ((encoded >>> 5) &&& 0x3f),
   extend5 (encoded &&& 0x1f), 0xff]

/-- RGB5A3 → RGBA bytes; the `as u8` cast of the unmasked `encoded >> 12`
is `% 256`. -/
def decode_rgb5a3 (encoded : Nat) : List Nat :=
  if encoded &&& 0x8000 = 0 then
    [extend4 ((encoded >>> 8) &&& 0xf), extend4 ((encoded >>> 4) &&& 0xf),
     extend4 (encoded &&& 0xf), extend3 ((encoded >>> 12) % 256)]
  else
    [extend5 ((encoded >>> 10) &&& 0x1f), extend5 ((encoded >>> 5) &&& 0x1f),
     extend5 (encoded &&& 0x1f), 0xff]

/-- `palette_fetcher`: palette sub-format 1 decodes entries as RGB565,
2 as RGB5A3, anything else is an error. -/
def palette_fetcher (format : Nat) :
    Option (List Nat → Nat → Option (List Nat)) :=
  match format with
  | 1 => some (fun data index =>
      (read_u16 (data.drop (2 * index))).map (fun p => decode_rgb565 p.1))
  | 2 => some (fun data index =>
      (read_u16 (data.drop (2 * index))).map (fun p => decode_rgb5a3 p.1))
  | _ => none

/-- Sequence a list of optional byte runs, concatenating in order. -/
def joinM : List (Option (List Nat)) → Option (List Nat)
  | [] => some []
  | o :: rest =>
    match o with
    | none => none
    | some l => (joinM rest).map (fun t => l ++ t)

/-- The inner `for x in 0..width` pixel loop of every dump function. -/
def pixelRow (width : Nat) (pix : Nat → Option (List Nat)) : Option (List Nat) :=
  joinM ((List.range width).map pix)

/-- The outer `for y in (0..height).rev() { let y = height - y - 1; ... }`
loop shared by every dump function. -/
def dumpBody (width height : Nat) (pix : Nat → Nat → Option (List Nat)) :
    Option (List Nat) :=
  joinM (((List.range height).reverse).map
    (fun y => pixelRow width (fun x => pix x (height - y - 1))))

/-- One pixel of the I4 format (dump_i4 inner loop).  Note the source
shadows the pixel `x` with the fetched byte, so the nibble choice tests the
byte's low bit. -/
def pix_i4 (data : List Nat) (blocks_wide x y : Nat) : Option (List Nat) :=
  let offset := 32 * (blocks_wide * (y / 8) + x / 8) + (8 * (y % 8) + x % 8) / 2
  (data.get? offset).map (fun v =>
    let i := if v &&& 1 = 0 then v >>> 4 else v &&& 0xf
    let i2 := (i <<< 4) ||| i
    [i2, i2, i2, 255])

def dump_i4 (data : List Nat) (width height : Nat) : Option (List Nat) :=
  dumpBody width height (fun x y => pix_i4 data ((width + 7) / 8) x y)

/-- One pixel of the I8 format (dump_i8 inner loop). -/
def pix_i8 (data : List Nat) (blocks_wide x y : Nat) : Option (List Nat) :=
  let offset := 32 * (blocks_wide * (y / 4) + x / 8) + 1 * (8 * (y % 4) + x % 8)
  (data.get? offset).map (fun i => [i, i, i, 255])

def dump_i8 (data : List Nat) (width height : Nat) : Option (List Nat) :=
  dumpBody width height (fun x y => pix_i8 data ((width + 7) / 8) x y)

/-- One pixel of the IA4 format (dump_ia4 inner loop). -/
def pix_ia4 (data : List Nat) (blocks_wide x y : Nat) : Option (List Nat) :=
  let offset := 32 * (blocks_wide * (y / 4) + x / 8) + 1 * (8 * (y % 4) + x % 8)
  (data.get? offset).map (fun encoded =>
    let i := encoded >>> 4
    let i2 := (i <<< 4) ||| i
    let a := encoded &&& 0xf
    let a2 := (a <<< 4) ||| a
    [i2, i2, i2, a2])

def dump_ia4 (data : List Nat) (width height : Nat) : Option (List Nat) :=
  dumpBody width height (fun x y => pix_ia4 data ((width + 7) / 8) x y)

/-- One pixel of the IA8 format (dump_ia8 inner loop). -/
def pix_ia8 (data : List Nat) (blocks_wide x y : Nat) : Option (List Nat) :=
  let offset := 32 * (blocks_wide * (y / 4) + x / 4) + 2 * (4 * (y % 4) + x % 4)
  match data.get? offset with
  | none => none
  | some i =>
    match data.get? (offset + 1) with
    | none => none
    | some a => some [i, i, i, a]

def dump_ia8 (data : List Nat) (width height : Nat) : Option (List Nat) :=
  dumpBody width height (fun x y => pix_ia8 data ((width + 3) / 4) x y)

/-- The header of the C4 format: palette sub-format word, the asserted
`1` and `16` u16s, the 32-byte palette, and the texel payload. -/
def c4_header (data : List Nat) :
    Option ((List Nat → Nat → Option (List Nat)) × List Nat × List Nat) :=
  match read_u32 data with
  | none => none
  | some (pf, r1) =>
    match palette_fetcher pf with
    | none => none
    | some fetch =>
      match read_u16 r1 with
      | none => none
      | some (a, r2) =>
        if a = 1 then
          match read_u16 r2 with
          | none => none
          | some (b, r3) =>
            if b = 16 then
              if 32 ≤ r3.length then some (fetch, r3.take 32, r3.drop 32)
              else none
            else none
        else none

/-- One pixel of the C4 format (dump_c4 inner loop); like I4, the nibble
choice tests the fetched byte's low bit. -/
def pix_c4 (fetch : List Nat → Nat → Option (List Nat))
    (palette body : List Nat) (blocks_wide x y : Nat) : Option (List Nat) :=
  let offset := 32 * (blocks_wide * (y / 8) + x / 8) + (8 * (y % 8) + x % 8) / 2
  match body.get? offset with
  | none => none
  | some v =>
    let c := if v &&& 1 = 0 then v >>> 4 else v &&& 0xf
    fetch palette c

def dump_c4 (data : List Nat) (width height : Nat) : Option (List Nat) :=
  match c4_header data with
  | none => none
  | some (fetch, palette, body) =>
    dumpBody width height (fun x y => pix_c4 fetch palette body ((width + 7) / 8) x y)

/-- The header of the C8 format: palette sub-format word, the asserted
`256` and `1` u16s, the 512-byte palette, and the texel payload. -/
def c8_header (data : List Nat) :
    Option ((List Nat → Nat → Option (List Nat)) × List Nat × List Nat) :=
  match read_u32 data with
  | none => none
  | some (pf, r1) =>
    match palette_fetcher pf with
    | none => none
    | some fetch =>
      match read_u16 r1 with
      | none => none
      | some (a, r2) =>
        if a = 256 then
          match read_u16 r2 with
          | none => none
          | some (b, r3) =>
            if b = 1 then
              if 512 ≤ r3.length then some (fetch, r3.take 512, r3.drop 512)
              else none
            else none
        else none

/-- One pixel of the C8 format (dump_c8 inner loop). -/
def pix_c8 (fetch : List Nat → Nat → Option (List Nat))
    (palette body : List Nat) (blocks_wide x y : Nat) : Option (List Nat) :=
  let offset := 32 * (blocks_wide * (y / 4) + x / 8) + 1 * (8 * (y % 4) + x % 8)
  match body.get? offset with
  | none => none
  | some c => fetch palette c

def dump_c8 (data : List Nat) (width height : Nat) : Option (List Nat) :=
  match c8_header data with
  | none => none
  | some (fetch, palette, body) =>
    dumpBody width height (fun x y => pix_c8 fetch palette body ((width + 7) / 8) x y)

/-- One pixel of the RGB565 format (dump_rgb565 inner loop). -/
def pix_rgb565 (data : List Nat) (blocks_wide x y : Nat) : Option (List Nat) :=
  let offset := 32 * (blocks_wide * (y / 4) + x / 4) + 2 * (4 * (y % 4) + x % 4)
  (read_u16 (data.drop offset)).map (fun p => decode_rgb565 p.1)

def dump_rgb565 (data : List Nat) (width height : Nat) : Option (List Nat) :=
  dumpBody width height (fun x y => pix_rgb565 data ((width + 3) / 4) x y)

/-- One pixel of the RGB5A3 format (dump_rgb5a3 inner loop). -/
def pix_rgb5a3 (data : List Nat) (blocks_wide x y : Nat) : Option (List Nat) :=
  let offset := 32 * (blocks_wide * (y / 4) + x / 4) + 2 * (4 * (y % 4) + x % 4)
  (read_u16 (data.drop offset)).map (fun p => decode_rgb5a3 p.1)

def dump_rgb5a3 (data : List Nat) (width height : Nat) : Option (List Nat) :=
  dumpBody width height (fun x y => pix_rgb5a3 data ((width + 3) / 4) x y)

/-- One pixel of the RGBA8 format (dump_rgba8 inner loop): A/R in one
32-byte half of the tile, G/B in the other. -/
def pix_rgba8 (data : List Nat) (blocks_wide x y : Nat) : Option (List Nat) :=
  let offset := 64 * (blocks_wide * (y / 4) + x / 4) + 2 * (4 * (y % 4) + x % 4)
  match data.get? offset with
  | none => none
  | some a =>
    match data.get? (offset + 1) with
    | none => none
    | some r =>
      match data.get? (offset + 32) with
      | none => none
      | some g =>
        match data.get? (offset + 33) with
        | none => none
        | some b => some [r, g, b, a]

def dump_rgba8 (data : List Nat) (width height : Nat) : Option (List Nat) :=
  dumpBody width height (fun x y => pix_rgba8 data ((width + 3) / 4) x y)

/-- Rust lexicographic `>` on same-length `[u8; 4]` arrays. -/
def arrGt : List Nat → List Nat → Bool
  | a :: as_, b :: bs =>
    if b < a then true else if a < b then false else arrGt as_ bs
  | _, _ => false

/-- The per-texel body of dump_cmpr over one 8-byte sub-block: two RGB565
endpoint colors, the 4-entry palette (3-step blend when the decoded color A
compares greater, else 2-step blend plus transparent black), and the 2-bit
index selection.  The final `palette[index]` cannot panic (`index ≤ 3`), so
`getD` is used. -/
def cmpr_block_texel (blk : List Nat) (x y : Nat) : Option (List Nat) :=
  match read_u16 blk with
  | none => none
  | some (color_a_encoded, blk1) =>
    match read_u16 blk1 with
    | none => none
    | some (color_b_encoded, blk2) =>
      let color_a := decode_rgb565 color_a_encoded
      let color_b := decode_rgb565 color_b_encoded
      let palette :=
        if arrGt color_a color_b then
          [color_a, color_b,
           [(2 * color_a.getD 0 0 + color_b.getD 0 0) / 3,
            (2 * color_a.getD 1 0 + color_b.getD 1 0) / 3,
            (2 * color_a.getD 2 0 + color_b.getD 2 0) / 3,
            (2 * color_a.getD 3 0 + color_b.getD 3 0) / 3],
           [(color_a.getD 0 0 + 2 * color_b.getD 0 0) / 3,
            (color_a.getD 1 0 + 2 * color_b.getD 1 0) / 3,
            (color_a.getD 2 0 + 2 * color_b.getD 2 0) / 3,
            (color_a.getD 3 0 + 2 * color_b.getD 3 0) / 3]]
        else
          [color_a, color_b,
           [(color_a.getD 0 0 + color_b.getD 0 0) / 2,
            (color_a.getD 1 0 + color_b.getD 1 0) / 2,
            (color_a.getD 2 0 + color_b.getD 2 0) / 2,
            (color_a.getD 3 0 + color_b.getD 3 0) / 2],
           [0, 0, 0, 0]]
      match blk2.get? (y % 4) with
      | none => none
      | some row =>
        let index := (row >>> (2 * (3 - x % 4))) &&& 3
        some (palette.getD index [0, 0, 0, 0])

/-- One pixel of the CMPR format (dump_cmpr inner loop): sub-block
addressing, then the per-texel body on the 8-byte sub-block slice. -/
def pix_cmpr (data : List Nat) (blocks_wide x y : Nat) : Option (List Nat) :=
  let sub_block := (((y / 4) &&& 1) <<< 1) ||| ((x / 4) &&& 1)
  let dxt1_offset := 32 * (blocks_wide * (y / 8) + x / 8) + 8 * sub_block
  if dxt1_offset + 8 ≤ data.length then
    cmpr_block_texel ((data.drop dxt1_offset).take 8) x y
  else none

def dump_cmpr (data : List Nat) (width height : Nat) : Option (List Nat) :=
  dumpBody width height (fun x y => pix_cmpr data ((width + 7) / 8) x y)

/-- The palette described by the claim for C2 (refinement reference): the
blend choice conditioned on the encoded 16-bit endpoint values compared as
numbers, with per-channel integer arithmetic on the bit-extended channels. -/
def cmpr_palette_spec (color_a_encoded color_b_encoded : Nat) : List (List Nat) :=
  let A := decode_rgb565 color_a_encoded
  let B := decode_rgb565 color_b_encoded
  if color_b_encoded < color_a_encoded then
    [A, B,
     [(2 * A.getD 0 0 + B.getD 0 0) / 3, (2 * A.getD 1 0 + B.getD 1 0) / 3,
      (2 * A.getD 2 0 + B.getD 2 0) / 3, (2 * A.getD 3 0 + B.getD 3 0) / 3],
     [(A.getD 0 0 + 2 * B.getD 0 0) / 3, (A.getD 1 0 + 2 * B.getD 1 0) / 3,
      (A.getD 2 0 + 2 * B.getD 2 0) / 3, (A.getD 3 0 + 2 * B.getD 3 0) / 3]]
  else
    [A, B,
     [(A.getD 0 0 + B.getD 0 0) / 2, (A.getD 1 0 + B.getD 1 0) / 2,
      (A.getD 2 0 + B.getD 2 0) / 2, (A.getD 3 0 + B.getD 3 0) / 2],
     [0, 0, 0, 0]]

/-- Concrete I4 payload for the C5 counterexample: an 8-wide, 2-high image
whose stored row 0 decodes to intensity 0 and stored row 1 to intensity
255. -/
def c5data : List Nat :=
  [0, 0, 0, 0, 255, 255, 255, 255] ++ List.replicate 24 0

/-- The raster `dump_i4` produces for `c5data`: stored row 0 first. -/
def c5out : List Nat :=
  [0, 0, 0, 255, 0, 0, 0, 255, 0, 0, 0, 255, 0, 0, 0, 255,
   0, 0, 0, 255, 0, 0, 0, 255, 0, 0, 0, 255, 0, 0, 0, 255] ++
  List.replicate 32 255

/- ----------------------------------------------------------------------
metroid-prime/src/cskr.rs: the skin resource decoder.  Results use `RRes`
to distinguish a returned error from the `assert_eq!` panic. -/

/-- One skin weight; the f32 weight is its raw bit pattern. -/
structure Weight where
  bone_id : Nat
  weight : Nat
deriving DecidableEq

def Weight.read_from (r : List Nat) : RRes (Weight × List Nat) :=
  match read_u32 r with
  | none => RRes.fail
  | some (bone_id, r) =>
    match read_u32 r with
    | none => RRes.fail
    | some (w, r) => RRes.ok (⟨bone_id, w⟩, r)

structure VertexGroup where
  weights : List Weight
  vertex_count : Nat
deriving DecidableEq

/-- The `for _ in 0..weight_count` loop of `VertexGroup::read_from`. -/
def read_weights : Nat → List Nat → RRes (List Weight × List Nat)
  | 0, r => RRes.ok ([], r)
  | n + 1, r =>
    match Weight.read_from r with
    | RRes.fail => RRes.fail
    | RRes.crash => RRes.crash
    | RRes.ok (w, r) =>
      match read_weights n r with
      | RRes.fail => RRes.fail
      | RRes.crash => RRes.crash
      | RRes.ok (ws, r) => RRes.ok (w :: ws, r)

def VertexGroup.read_from (r : List Nat) : RRes (VertexGroup × List Nat) :=
  match read_u32 r with
  | none => RRes.fail
  | some (weight_count, r) =>
    match read_weights weight_count r with
    | RRes.fail => RRes.fail
    | RRes.crash => RRes.crash
    | RRes.ok (weights, r) =>
      match read_u32 r with
      | none => RRes.fail
      | some (vertex_count, r) => RRes.ok (⟨weights, vertex_count⟩, r)

structure Cskr where
  vertex_groups : List VertexGroup
deriving DecidableEq

theorem weight_read_length {r : List Nat} {w : Weight} {r2 : List Nat}
    (h : Weight.read_from r = RRes.ok (w, r2)) : r2.length + 8 = r.length := by
  unfold Weight.read_from at h
  cases h1 : read_u32 r with
  | none => rw [h1] at h; simp at h
  | some a =>
    obtain ⟨b, r1⟩ := a
    rw [h1] at h
    dsimp only at h
    cases h2 : read_u32 r1 with
    | none => rw [h2] at h; simp at h
    | some a2 =>
      obtain ⟨v, r3⟩ := a2
      rw [h2] at h
      simp at h
      obtain ⟨-, rfl⟩ := h
      have e1 := read_u32_length h1
      have e2 := read_u32_length h2
      omega

theorem read_weights_le : ∀ {n : Nat} {r : List Nat} {ws : List Weight} {r2 : List Nat},
    read_weights n r = RRes.ok (ws, r2) → r2.length ≤ r.length := by
  intro n
  induction n with
  | zero =>
    intro r ws r2 h
    simp [read_weights] at h
    obtain ⟨-, rfl⟩ := h
    exact Nat.le_refl _
  | succ k ih =>
    intro r ws r2 h
    rw [read_weights] at h
    cases h1 : Weight.read_from r with
    | fail => rw [h1] at h; simp at h
    | crash => rw [h1] at h; simp at h
    | ok a =>
      obtain ⟨w, r1⟩ := a
      rw [h1] at h
      dsimp only at h
      cases h2 : read_weights k r1 with
      | fail => rw [h2] at h; simp at h
      | crash => rw [h2] at h; simp at h
      | ok a2 =>
        obtain ⟨ws2, r3⟩ := a2
        rw [h2] at h
        simp at h
        obtain ⟨-, rfl⟩ := h
        have e1 := weight_read_length h1
        have e2 := ih h2
        omega

theorem vg_read_lt {r : List Nat} {g : VertexGroup} {r2 : List Nat}
    (h : VertexGroup.read_from r = RRes.ok (g, r2)) : r2.length < r.length := by
  unfold VertexGroup.read_from at h
  cases h1 : read_u32 r with
  | none => rw [h1] at h; simp at h
  | some a =>
    obtain ⟨wc, r1⟩ := a
    rw [h1] at h
    dsimp only at h
    cases h2 : read_weights wc r1 with
    | fail => rw [h2] at h; simp at h
    | crash => rw [h2] at h; simp at h
    | ok a2 =>
      obtain ⟨ws, r3⟩ := a2
      rw [h2] at h
      dsimp only at h
      cases h3 : read_u32 r3 with
      | none => rw [h3] at h; simp at h
      | some a3 =>
        obtain ⟨vc, r4⟩ := a3
        rw [h3] at h
        simp at h
        obtain ⟨-, rfl⟩ := h
        have e1 := read_u32_length h1
        have e2 := read_weights_le h2
        have e3 := read_u32_length h3
        omega

/-- The `while total_weights < weight_count` loop of `Cskr::read_from`,
threading the accumulated groups and running weight total. -/
def cskr_loop (weight_count total : Nat) (acc : List VertexGroup) (r : List Nat) :
    RRes (List VertexGroup × Nat × List Nat) :=
  if total < weight_count then
    match hg : VertexGroup.read_from r with
    | RRes.fail => RRes.fail
    | RRes.crash => RRes.crash
    | RRes.ok (g, r2) =>
      cskr_loop weight_count (total + g.weights.length) (acc ++ [g]) r2
  else RRes.ok (acc, total, r)
termination_by r.length
decreasing_by exact vg_read_lt hg

/-- `Cskr::read_from`: declared total, the group loop, then the
`assert_eq!(total_weights, weight_count)` (a panic on mismatch). -/
def Cskr.read_from (r : List Nat) : RRes (Cskr × List Nat) :=
  match read_u32 r with
  | none => RRes.fail
  | some (weight_count, r) =>
    match cskr_loop weight_count 0 [] r with
    | RRes.fail => RRes.fail
    | RRes.crash => RRes.crash
    | RRes.ok (gs, total, r) =>
      if total = weight_count then RRes.ok (⟨gs⟩, r) else RRes.crash

/-- C3 counterexample input: declared total 1, then one group carrying two
weights (overshoot). -/
def c3bytes : List Nat :=
  [0, 0, 0, 1] ++ [0, 0, 0, 2] ++ List.replicate 16 0 ++ [0, 0, 0, 5]

/-- C3 witness input: declared total 1, one group with one weight. -/
def c3good : List Nat :=
  [0, 0, 0, 1] ++ [0, 0, 0, 1] ++ List.replicate 8 0 ++ [0, 0, 0, 7]

/- ----------------------------------------------------------------------
metroid-prime/src/pak.rs: resource-table entries, `ResourceTableEntry::data`
and `Pak::data`.  The flate2 inflater is an external library; it is
modelled as an oracle `inflate : List Nat → Nat → InflResult` giving, for a
compressed stream and an output-buffer capacity, either a decompressor
error or a returned status together with the bytes written to the front of
the output buffer. -/

inductive InflStatus where
  | okProgress : InflStatus
  | bufError : InflStatus
  | streamEnd : InflStatus
deriving DecidableEq

inductive InflResult where
  | err : InflResult
  | success : InflStatus → List Nat → InflResult
deriving DecidableEq

structure ResourceTableEntry where
  compression : Nat
  fourcc : List Nat
  file_id : Nat
  data : List Nat
deriving DecidableEq

/-- `ResourceTableEntry::data` (pak.rs lines 143-165): raw bytes for
compression 0; for compression 1 a 4-byte uncompressed-size prefix, a
zero-filled output buffer of the declared size, one `decompress` call whose
status must be `StreamEnd` by `assert_eq!` (a panic otherwise), `?` on the
decompressor error, and the buffer — remaining zero fill included —
returned; `bail!` on any other compression value. -/
def entryData (inflate : List Nat → Nat → InflResult)
    (e : ResourceTableEntry) : RRes (List Nat) :=
  if e.compression = 0 then RRes.ok e.data
  else if e.compression = 1 then
    match read_u32 e.data with
    | none => RRes.fail
    | some (size, _) =>
      match inflate (e.data.drop 4) size with
      | InflResult.err => RRes.fail
      | InflResult.success status out =>
        if status = InflStatus.streamEnd
        then RRes.ok ((out ++ List.replicate size 0).take size)
        else RRes.crash
  else RRes.fail

/-- `Pak::data` (pak.rs lines 72-79): the first resource-table entry with
the requested id, its bytes resolved through `ResourceTableEntry::data`,
`transpose`d. -/
def pakData (inflate : List Nat → Nat → InflResult)
    (table : List ResourceTableEntry) (fid : Nat) : RRes (Option (List Nat)) :=
  match table.find? (fun e => e.file_id == fid) with
  | none => RRes.ok none
  | some e =>
    match entryData inflate e with
    | RRes.fail => RRes.fail
    | RRes.crash => RRes.crash
    | RRes.ok v => RRes.ok (some v)

/-- C4 oracle: stream-end after producing zero bytes. -/
def c4inflate : List Nat → Nat → InflResult :=
  fun _ _ => InflResult.success InflStatus.streamEnd []

/-- C4 oracle: the decompressor succeeds without reaching stream-end. -/
def c4inflateBuf : List Nat → Nat → InflResult :=
  fun _ _ => InflResult.success InflStatus.bufError []

/-- C4 oracle: stream-end with exactly one byte of output. -/
def c4inflateExact : List Nat → Nat → InflResult :=
  fun _ _ => InflResult.success InflStatus.streamEnd [7]

/-- C4 concrete entry: compression 1, declared uncompressed size 1. -/
def c4entry : ResourceTableEntry := ⟨1, [0, 0, 0, 0], 9, [0, 0, 0, 1, 3]⟩

/-- C10 oracle: never consulted (both concrete entries are stored raw). -/
def c10inflate : List Nat → Nat → InflResult :=
  fun _ _ => InflResult.err

/-- C10 concrete entries: two resources sharing file id 5. -/
def c10a : ResourceTableEntry := ⟨0, [0, 0, 0, 0], 5, [1, 2]⟩

def c10b : ResourceTableEntry := ⟨0, [0, 0, 0, 0], 5, [9]⟩

/- ----------------------------------------------------------------------
metroid-prime/src/cmdl.rs, Cmdl::read_from lines 65-96: the
section-consumption phase.  Section payloads are opaque here: material
sets and surfaces are parsed by `read_typed`, modelled as parameters
`readMat` / `readSurf`; the surface-offset-table parse (lines 81-90) is
concrete.  `pop_front().unwrap()` on the `VecDeque` panics when no section
remains. -/

def RRes.bind {α β : Type} : RRes α → (α → RRes β) → RRes β
  | RRes.ok a, f => f a
  | RRes.fail, _ => RRes.fail
  | RRes.crash, _ => RRes.crash

/-- `sections.pop_front().unwrap()`: the front section, a panic if none
remains. -/
def popFront : List (List Nat) → RRes (List Nat × List (List Nat))
  | [] => RRes.crash
  | d :: rest => RRes.ok (d, rest)

/-- A `for _ in 0..n { let data = sections.pop_front().unwrap();
out.push(data.as_slice().read_typed()?); }` loop. -/
def popParsed {α : Type} (readSec : List Nat → RRes α) :
    Nat → List (List Nat) → List α → RRes (List α × List (List Nat))
  | 0, secs, acc => RRes.ok (acc, secs)
  | _ + 1, [], _ => RRes.crash
  | n + 1, d :: secs, acc =>
    match readSec d with
    | RRes.fail => RRes.fail
    | RRes.crash => RRes.crash
    | RRes.ok m => popParsed readSec n secs (acc ++ [m])

/-- `count` big-endian u32 reads (the offset list of lines 86-88). -/
def readOffsets : Nat → List Nat → Option (List Nat × List Nat)
  | 0, r => some ([], r)
  | n + 1, r =>
    match read_u32 r with
    | none => none
    | some (v, r) =>
      match readOffsets n r with
      | none => none
      | some (vs, r2) => some (v :: vs, r2)

/-- The surface-offset-table section (lines 81-90): a u32 count, then that
many u32 end offsets. -/
def parseSurfaceOffsets (d : List Nat) : Option (List Nat) :=
  match read_u32 d with
  | none => none
  | some (count, r) => (readOffsets count r).map Prod.fst

/-- The outputs of the section-consumption phase of `Cmdl::read_from`. -/
structure CmdlTail (α β : Type) where
  materials : List α
  position_data : List Nat
  normal_data : List Nat
  color_data : List Nat
  uv_float_data : List Nat
  uv_short_data : List Nat
  surface_end_offsets : List Nat
  surfaces : List β
deriving DecidableEq

/-- Lines 65-96 of `Cmdl::read_from`: the material-set pops, the four
fixed attribute-buffer pops, the flag-gated uv-short pop (`flags & 4`),
the surface-offset table, and one section per surface. -/
def cmdlTail {α β : Type} (readMat : List Nat → RRes α)
    (readSurf : List Nat → RRes β) (flags msc : Nat)
    (sections : List (List Nat)) : RRes (CmdlTail α β) :=
  RRes.bind (popParsed readMat msc sections []) fun ms =>
  RRes.bind (popFront ms.2) fun pd =>
  RRes.bind (popFront pd.2) fun nd =>
  RRes.bind (popFront nd.2) fun cd =>
  RRes.bind (popFront cd.2) fun ud =>
  RRes.bind (if flags &&& 4 ≠ 0 then popFront ud.2
             else RRes.ok ([], ud.2)) fun sd =>
  RRes.bind (popFront sd.2) fun od =>
  match parseSurfaceOffsets od.1 with
  | none => RRes.fail
  | some offs =>
    RRes.bind (popParsed readSurf offs.length od.2 []) fun ss =>
    RRes.ok ⟨ms.1, pd.1, nd.1, cd.1, ud.1, sd.1, offs, ss.1⟩

/-- C6 witness sections: one material set, the four fixed buffers, the
offset table (count 1, end offset 8), one surface. -/
def c6secs : List (List Nat) :=
  [[1], [2], [3], [4], [5], [0, 0, 0, 1, 0, 0, 0, 8], [7]]

/-- C6 witness sections with a uv-short section present. -/
def c6secs2 : List (List Nat) :=
  [[1], [2], [3], [4], [5], [6], [0, 0, 0, 1, 0, 0, 0, 8], [7]]

/-- The tail decoded from `c6secs` with flags 0. -/
def c6t0 : CmdlTail (List Nat) (List Nat) :=
  ⟨[[1]], [2], [3], [4], [5], [], [8], [[7]]⟩

/-- The tail decoded from `c6secs2` with flags 4. -/
def c6t1 : CmdlTail (List Nat) (List Nat) :=
  ⟨[[1]], [2], [3], [4], [5], [6], [8], [[7]]⟩

/- ----------------------------------------------------------------------
metroid-prime/src/main.rs, lines 215-263 and 391-421: `StaticVertex`, its
bit-pattern `PartialEq`, and the per-surface vertex-deduplication loop of
`make_static_gltf_document`.  Every `f32` field is carried as its 32-bit
pattern (`to_bits`), so the `==` below is the source comparison
`a.to_bits() == b.to_bits()`.  The `HashMap` is modelled as an association
list searched by the `Eq` instance (`Hash` agrees with `Eq`, both reading
`to_bits`); `index_buffer` carries the u16 index values rather than their
little-endian bytes.  `vertex_count.try_into().unwrap()` panics once
`vertex_count` no longer fits in a u16, modelled as `none`. -/

structure StaticVertex where
  position0 : Nat
  position1 : Nat
  position2 : Nat
  normal0 : Nat
  normal1 : Nat
  normal2 : Nat
  texcoord0 : Nat
  texcoord1 : Nat
deriving DecidableEq

/-- `impl PartialEq for StaticVertex` (main.rs lines 237-249): field-wise
`to_bits` comparison. -/
def StaticVertex.eqBits (a b : StaticVertex) : Bool :=
  a.position0 == b.position0 && a.position1 == b.position1 &&
  a.position2 == b.position2 && a.normal0 == b.normal0 &&
  a.normal1 == b.normal1 && a.normal2 == b.normal2 &&
  a.texcoord0 == b.texcoord0 && a.texcoord1 == b.texcoord1

/-- Per-surface state of the dedup loop: `vertex_count`,
`indices_by_vertex`, the attribute buffer (as vertices, in write order),
and the index buffer (as u16 values). -/
structure DedupState where
  vertex_count : Nat
  map : List (StaticVertex × Nat)
  attrs : List StaticVertex
  index_buffer : List Nat
deriving DecidableEq

/-- `indices_by_vertex.get(&v)` under the bit-pattern `Eq`. -/
def mapGet (m : List (StaticVertex × Nat)) (v : StaticVertex) : Option Nat :=
  (m.find? (fun p => StaticVertex.eqBits p.1 v)).map Prod.snd

/-- One iteration of the vertex loop (main.rs lines 396-417): reuse the
mapped index, or assign `vertex_count` (a panic if it no longer fits in a
u16), append the vertex to the attribute buffer and register it. -/
def dedup_step (s : DedupState) (v : StaticVertex) : Option DedupState :=
  match mapGet s.map v with
  | some i =>
    some ⟨s.vertex_count, s.map, s.attrs, s.index_buffer ++ [i]⟩
  | none =>
    if s.vertex_count < 65536 then
      some ⟨s.vertex_count + 1, s.map ++ [(v, s.vertex_count)],
        s.attrs ++ [v], s.index_buffer ++ [s.vertex_count]⟩
    else none

/-- The whole vertex loop over a surface's vertex run. -/
def dedup_run : List StaticVertex → DedupState → Option DedupState
  | [], s => some s
  | v :: vs, s =>
    match dedup_step s v with
    | none => none
    | some s2 => dedup_run vs s2

/-- The association list holding `xs[i] ↦ k + i`. -/
def mapOf : List StaticVertex → Nat → List (StaticVertex × Nat)
  | [], _ => []
  | v :: vs, k => (v, k) :: mapOf vs (k + 1)

/-- Loop invariant of `dedup_run`: the map indexes the attribute buffer in
write order, `vertex_count` counts it, every processed vertex is
represented in it, and the index buffer holds each processed vertex's
first-occurrence position. -/
def DedupInv (processed : List StaticVertex) (s : DedupState) : Prop :=
  s.map = mapOf s.attrs 0 ∧
  s.vertex_count = s.attrs.length ∧
  (∀ w ∈ processed, s.attrs.any (fun u => StaticVertex.eqBits u w) = true) ∧
  s.index_buffer =
    processed.map (fun w => s.attrs.findIdx (fun u => StaticVertex.eqBits u w))

/-- An all-zero vertex (every field the bit pattern of `0.0`). -/
def c7v0 : StaticVertex := ⟨0, 0, 0, 0, 0, 0, 0, 0⟩

/-- The same vertex with `position[0] = -0.0` (bit pattern `0x80000000`). -/
def c7vneg0 : StaticVertex := ⟨0x80000000, 0, 0, 0, 0, 0, 0, 0⟩

/-- C7 witness vertex run: zero, negative zero, zero again. -/
def c7vs : List StaticVertex := [c7v0, c7vneg0, c7v0]

/-- The state `dedup_run` reaches on `c7vs`. -/
def c7s : DedupState :=
  ⟨2, [(c7v0, 0), (c7vneg0, 1)], [c7v0, c7vneg0], [0, 1, 0]⟩

end MP

namespace MP

/-- `ascii_scan` succeeds with the prefix before the first zero byte exactly
when every byte of that prefix is ASCII. -/
theorem ascii_scan_eq (bs : List Nat) :
    ascii_scan bs =
      if (bs.takeWhile (fun c => c != 0)).all (fun b => b < 128)
      then some (bs.takeWhile (fun c => c != 0))
      else none := by
  induction bs with
  | nil => simp [ascii_scan]
  | cons b bs ih =>
    by_cases hb0 : b = 0
    · subst hb0
      simp [ascii_scan]
    · have hbne : ((b != 0) = true) := by simpa using hb0
      rw [show List.takeWhile (fun c => c != 0) (b :: bs) =
            b :: List.takeWhile (fun c => c != 0) bs from List.takeWhile_cons_of_pos hbne]
      by_cases hba : b < 128
      · simp only [ascii_scan, if_neg hb0, if_pos hba, ih]
        by_cases hall : (bs.takeWhile (fun c => c != 0)).all (fun b => b < 128) = true
        · rw [if_pos hall, if_pos]
          · simp
          · simp only [List.all_cons, Bool.and_eq_true, decide_eq_true_eq]
            exact ⟨hba, hall⟩
        · rw [if_neg hall, if_neg]
          · simp
          · intro h
            apply hall
            simp only [List.all_cons, Bool.and_eq_true] at h
            exact h.2
      · simp only [ascii_scan, if_neg hb0, if_neg hba]
        rw [if_neg]
        intro h
        apply hba
        have := List.all_eq_true.mp h b (by simp)
        simpa using this

/-- C8: `read_fixed_capacity_ascii_c_string(n)` consumes exactly `n` bytes
whenever at least `n` are available, returns the bytes preceding the first
zero byte (all `n` if none is zero), fails with the non-ASCII error exactly
when a byte ≥ 0x80 occurs before the first zero byte, and bytes after the
first zero byte never affect success. -/
theorem c8_read_fixed_capacity (len : Nat) (r : List Nat) (h : len ≤ r.length) :
    read_fixed_capacity_ascii_c_string len r =
      if ((r.take len).takeWhile (fun c => c != 0)).all (fun b => b < 128)
      then CStrResult.ok ((r.take len).takeWhile (fun c => c != 0)) (r.drop len)
      else CStrResult.nonAscii (r.drop len) := by
  rw [read_fixed_capacity_ascii_c_string, if_neg (by omega), ascii_scan_eq]
  by_cases hall : ((r.take len).takeWhile (fun c => c != 0)).all (fun b => b < 128) = true
  · rw [if_pos hall, if_pos hall]
  · rw [if_neg hall, if_neg hall]

/- ------------------------- C1: strip/fan reconstruction ------------------ -/

theorem getD_map {α β : Type} (f : α → β) (l : List α) (i : Nat) (hi : i < l.length)
    (z : β) (d : α) : (l.map f).getD i z = f (l.getD i d) := by
  induction l generalizing i with
  | nil => simp at hi
  | cons a l ih =>
    cases i with
    | zero => simp
    | succ i => simpa using ih i (by simpa using hi)

theorem strip_flat_length (l : List (Nat × Nat × Nat)) :
    ∀ (par : Bool) (a b : Nat × Nat × Nat), (strip_flat par a b l).length = 3 * l.length := by
  induction l with
  | nil => intro par a b; simp [strip_flat]
  | cons c rest ih =>
    intro par a b
    cases par <;> simp [strip_flat, ih] <;> omega

theorem fan_flat_length (l : List (Nat × Nat × Nat)) :
    ∀ (piv b : Nat × Nat × Nat), (fan_flat piv b l).length = 3 * l.length := by
  induction l with
  | nil => intro piv b; simp [fan_flat]
  | cons c rest ih =>
    intro piv b
    simp [fan_flat, ih]
    omega

/-- Folding the remaining strip vertices from a two-buffered state appends
exactly the `strip_flat` expansion to the accumulated positions. -/
theorem strip_fold_positions {J W : Type} (rest : List (Vtx J W)) :
    ∀ (s : TriangleStrip J W) (par : Bool), s.state = (if par then 3 else 2) →
      (rest.foldl TriangleStrip.handle_vertex s).positions
        = s.positions ++ strip_flat par s.position_a s.position_b (rest.map Vtx.position) := by
  induction rest with
  | nil => intro s par _; simp [strip_flat]
  | cons c rest ih =>
    intro s par h
    rw [List.foldl_cons]
    cases par with
    | false =>
      have h2 : s.state = 2 := by simpa using h
      rw [ih _ true (by simp [TriangleStrip.handle_vertex, h2, TriangleStrip.shift])]
      simp [TriangleStrip.handle_vertex, h2, TriangleStrip.shift, strip_flat]
    | true =>
      have h3 : s.state = 3 := by simpa using h
      rw [ih _ false (by simp [TriangleStrip.handle_vertex, h3, TriangleStrip.shift])]
      simp [TriangleStrip.handle_vertex, h3, TriangleStrip.shift, strip_flat]

/-- Folding the remaining fan vertices from the two-buffered state appends
exactly the `fan_flat` expansion to the accumulated positions. -/
theorem fan_fold_positions {J W : Type} (rest : List (Vtx J W)) :
    ∀ (s : TriangleFan J W), s.state = 2 →
      (rest.foldl TriangleFan.handle_vertex s).positions
        = s.positions ++ fan_flat s.position_a s.position_b (rest.map Vtx.position) := by
  induction rest with
  | nil => intro s _; simp [fan_flat]
  | cons c rest ih =>
    intro s h
    rw [List.foldl_cons]
    rw [ih _ (by simp [TriangleFan.handle_vertex, h, TriangleFan.shift])]
    simp [TriangleFan.handle_vertex, h, TriangleFan.shift, fan_flat]

theorem strip_swapped_eq (i : Nat) :
    ∀ par : Bool, strip_swapped par i = (par ^^ decide (i % 2 = 1)) := by
  induction i with
  | zero => intro par; simp [strip_swapped]
  | succ i ih =>
    intro par
    rw [strip_swapped, ih (!par)]
    have h1 : ((i + 1) % 2 = 1) ↔ ¬(i % 2 = 1) := by omega
    rcases Bool.eq_false_or_eq_true (decide (i % 2 = 1)) with hd | hd <;>
      rcases Bool.eq_false_or_eq_true par with hp | hp <;>
        simp_all

/-- Triple of positions of strip triangle `i` (valid for `i < l.length`). -/
theorem strip_flat_getD (i : Nat) :
    ∀ (par : Bool) (a b : Nat × Nat × Nat) (l : List (Nat × Nat × Nat)), i < l.length →
      ((strip_flat par a b l).getD (3 * i) (0, 0, 0),
       (strip_flat par a b l).getD (3 * i + 1) (0, 0, 0),
       (strip_flat par a b l).getD (3 * i + 2) (0, 0, 0))
      = if strip_swapped par i
        then ((a :: b :: l).getD (i + 1) (0, 0, 0), (a :: b :: l).getD i (0, 0, 0),
              (a :: b :: l).getD (i + 2) (0, 0, 0))
        else ((a :: b :: l).getD i (0, 0, 0), (a :: b :: l).getD (i + 1) (0, 0, 0),
              (a :: b :: l).getD (i + 2) (0, 0, 0)) := by
  induction i with
  | zero =>
    intro par a b l hl
    match l with
    | c :: rest =>
      cases par <;> simp [strip_flat, strip_swapped]
  | succ i ih =>
    intro par a b l hl
    match l with
    | c :: rest =>
      have hr : i < rest.length := by simpa using hl
      have hlen : (if par then [b, a, c] else [a, b, c]).length = 3 := by
        cases par <;> simp
      have key : ∀ k : Nat,
          (strip_flat par a b (c :: rest)).getD (3 * (i + 1) + k) (0, 0, 0)
            = (strip_flat (!par) b c rest).getD (3 * i + k) (0, 0, 0) := by
        intro k
        rw [strip_flat, List.getD_append_right]
        · rw [hlen]
          congr 1
          omega
        · rw [hlen]; omega
      have k0 := key 0
      have k1 := key 1
      have k2 := key 2
      simp only [Nat.add_zero] at k0
      rw [k0, k1, k2, ih (!par) b c rest hr]
      rw [show strip_swapped par (i + 1) = strip_swapped (!par) i from rfl]
      cases strip_swapped (!par) i <;> simp

/-- Triple of positions of fan triangle `i` (valid for `i < l.length`). -/
theorem fan_flat_getD (i : Nat) :
    ∀ (piv b : Nat × Nat × Nat) (l : List (Nat × Nat × Nat)), i < l.length →
      ((fan_flat piv b l).getD (3 * i) (0, 0, 0),
       (fan_flat piv b l).getD (3 * i + 1) (0, 0, 0),
       (fan_flat piv b l).getD (3 * i + 2) (0, 0, 0))
      = (piv, (b :: l).getD i (0, 0, 0), (b :: l).getD (i + 1) (0, 0, 0)) := by
  induction i with
  | zero =>
    intro piv b l hl
    match l with
    | c :: rest => simp [fan_flat]
  | succ i ih =>
    intro piv b l hl
    match l with
    | c :: rest =>
      have hr : i < rest.length := by simpa using hl
      have key : ∀ k : Nat,
          (fan_flat piv b (c :: rest)).getD (3 * (i + 1) + k) (0, 0, 0)
            = (fan_flat piv c rest).getD (3 * i + k) (0, 0, 0) := by
        intro k
        rw [fan_flat, List.getD_append_right]
        · congr 1
          simp
          omega
        · simp; omega
      have k0 := key 0
      have k1 := key 1
      have k2 := key 2
      simp only [Nat.add_zero] at k0
      rw [k0, k1, k2, ih piv c rest hr]
      simp

/-- C1: a triangle-strip run of `k ≥ 3` vertices expands to exactly `k - 2`
triangles with alternating winding — triangle `i` is `(v i, v (i+1), v (i+2))`
for even `i` and `(v (i+1), v i, v (i+2))` for odd `i` — and a triangle-fan
run of `k ≥ 3` vertices expands to exactly `k - 2` triangles
`(v 0, v (i+1), v (i+2))` all pivoting on the first vertex of the run. -/
theorem c1_strip_fan_reconstruction (J W : Type) [Inhabited J] [Inhabited W]
    (vs : List (Vtx J W)) (h3 : 3 ≤ vs.length) :
    ((vs.foldl TriangleStrip.handle_vertex (TriangleStrip.new J W)).finish.positions.length
        = 3 * (vs.length - 2)
      ∧ ∀ i, i < vs.length - 2 →
        ((vs.foldl TriangleStrip.handle_vertex (TriangleStrip.new J W)).finish.positions.getD
            (3 * i) (0, 0, 0),
         (vs.foldl TriangleStrip.handle_vertex (TriangleStrip.new J W)).finish.positions.getD
            (3 * i + 1) (0, 0, 0),
         (vs.foldl TriangleStrip.handle_vertex (TriangleStrip.new J W)).finish.positions.getD
            (3 * i + 2) (0, 0, 0))
        = if i % 2 = 0
          then ((vs.getD i default).position, (vs.getD (i + 1) default).position,
                (vs.getD (i + 2) default).position)
          else ((vs.getD (i + 1) default).position, (vs.getD i default).position,
                (vs.getD (i + 2) default).position))
    ∧ ((vs.foldl TriangleFan.handle_vertex (TriangleFan.new J W)).finish.positions.length
        = 3 * (vs.length - 2)
      ∧ ∀ i, i < vs.length - 2 →
        ((vs.foldl TriangleFan.handle_vertex (TriangleFan.new J W)).finish.positions.getD
            (3 * i) (0, 0, 0),
         (vs.foldl TriangleFan.handle_vertex (TriangleFan.new J W)).finish.positions.getD
            (3 * i + 1) (0, 0, 0),
         (vs.foldl TriangleFan.handle_vertex (TriangleFan.new J W)).finish.positions.getD
            (3 * i + 2) (0, 0, 0))
        = ((vs.getD 0 default).position, (vs.getD (i + 1) default).position,
           (vs.getD (i + 2) default).position)) := by
  match vs, h3 with
  | v0 :: v1 :: rest, _ =>
    have hmap : (v0 :: v1 :: rest).map Vtx.position
        = v0.position :: v1.position :: rest.map Vtx.position := by simp
    have hstrip : ((v0 :: v1 :: rest).foldl TriangleStrip.handle_vertex
        (TriangleStrip.new J W)).finish.positions
          = strip_flat false v0.position v1.position (rest.map Vtx.position) := by
      rw [List.foldl_cons, List.foldl_cons]
      rw [TriangleStrip.finish,
        strip_fold_positions rest _ false (by simp [TriangleStrip.new, TriangleStrip.handle_vertex])]
      simp [TriangleStrip.new, TriangleStrip.handle_vertex]
    have hfan : ((v0 :: v1 :: rest).foldl TriangleFan.handle_vertex
        (TriangleFan.new J W)).finish.positions
          = fan_flat v0.position v1.position (rest.map Vtx.position) := by
      rw [List.foldl_cons, List.foldl_cons]
      rw [TriangleFan.finish,
        fan_fold_positions rest _ (by simp [TriangleFan.new, TriangleFan.handle_vertex,
          TriangleFan.shift])]
      simp [TriangleFan.new, TriangleFan.handle_vertex, TriangleFan.shift]
    have hlen2 : (v0 :: v1 :: rest).length - 2 = rest.length := by simp
    have hgd : ∀ j, j < rest.length + 2 →
        ((v0 :: v1 :: rest).map Vtx.position).getD j (0, 0, 0)
          = ((v0 :: v1 :: rest).getD j default).position := by
      intro j hj
      exact getD_map Vtx.position _ j (by simpa using hj) _ _
    refine ⟨⟨?_, ?_⟩, ⟨?_, ?_⟩⟩
    · rw [hstrip, strip_flat_length]
      simp
    · intro i hi
      have hir : i < rest.length := by omega
      rw [hstrip, strip_flat_getD i false v0.position v1.position _ (by simpa using hir)]
      have hcast : v0.position :: v1.position :: rest.map Vtx.position
          = ((v0 :: v1 :: rest).map Vtx.position) := by simp
      rw [strip_swapped_eq i false, hcast, hgd i (by omega), hgd (i + 1) (by omega),
        hgd (i + 2) (by omega)]
      by_cases hpar : i % 2 = 0
      · have hd : decide (i % 2 = 1) = false := by simp; omega
        rw [hd]
        simp [hpar]
      · have hd : decide (i % 2 = 1) = true := by simp; omega
        rw [hd]
        simp [hpar]
    · rw [hfan, fan_flat_length]
      simp
    · intro i hi
      have hir : i < rest.length := by omega
      rw [hfan, fan_flat_getD i v0.position v1.position _ (by simpa using hir)]
      have hb : v1.position :: rest.map Vtx.position
          = ((v1 :: rest).map Vtx.position) := by simp
      rw [hb]
      rw [getD_map Vtx.position (v1 :: rest) i (by simp; omega) _ default,
        getD_map Vtx.position (v1 :: rest) (i + 1) (by simp; omega) _ default]
      simp

/-- Witness for C1: four concrete vertices through both handlers. -/
theorem c1_witness :
    (3 ≤ (c1vs.length)) ∧
    (((c1vs.foldl TriangleStrip.handle_vertex (TriangleStrip.new Unit Unit)).finish.positions.length
        = 3 * (c1vs.length - 2)
      ∧ ∀ i, i < c1vs.length - 2 →
        ((c1vs.foldl TriangleStrip.handle_vertex (TriangleStrip.new Unit Unit)).finish.positions.getD
            (3 * i) (0, 0, 0),
         (c1vs.foldl TriangleStrip.handle_vertex (TriangleStrip.new Unit Unit)).finish.positions.getD
            (3 * i + 1) (0, 0, 0),
         (c1vs.foldl TriangleStrip.handle_vertex (TriangleStrip.new Unit Unit)).finish.positions.getD
            (3 * i + 2) (0, 0, 0))
        = if i % 2 = 0
          then ((c1vs.getD i default).position, (c1vs.getD (i + 1) default).position,
                (c1vs.getD (i + 2) default).position)
          else ((c1vs.getD (i + 1) default).position, (c1vs.getD i default).position,
                (c1vs.getD (i + 2) default).position))
    ∧ ((c1vs.foldl TriangleFan.handle_vertex (TriangleFan.new Unit Unit)).finish.positions.length
        = 3 * (c1vs.length - 2)
      ∧ ∀ i, i < c1vs.length - 2 →
        ((c1vs.foldl TriangleFan.handle_vertex (TriangleFan.new Unit Unit)).finish.positions.getD
            (3 * i) (0, 0, 0),
         (c1vs.foldl TriangleFan.handle_vertex (TriangleFan.new Unit Unit)).finish.positions.getD
            (3 * i + 1) (0, 0, 0),
         (c1vs.foldl TriangleFan.handle_vertex (TriangleFan.new Unit Unit)).finish.positions.getD
            (3 * i + 2) (0, 0, 0))
        = ((c1vs.getD 0 default).position, (c1vs.getD (i + 1) default).position,
           (c1vs.getD (i + 2) default).position))) :=
  ⟨by decide, c1_strip_fan_reconstruction Unit Unit c1vs (by decide)⟩

/- ------------------------- C9: batch parallel-array invariant ------------ -/

theorem tri_inv_step {J W : Type} {uv : Bool} {s : Triangles J W} {v : Vtx J W}
    (hv : v.texcoord.isSome = uv) (hs : tri_inv uv s) :
    tri_inv uv (s.handle_vertex v) := by
  unfold tri_inv at hs ⊢
  obtain ⟨h1, h2, h3, h4, h5⟩ := hs
  unfold Triangles.handle_vertex
  split
  · exact ⟨h1, h2, h3, h4, h5⟩
  · exact ⟨h1, h2, h3, h4, h5⟩
  · cases hvt : v.texcoord with
    | none =>
      have huv : uv = false := by rw [← hv, hvt]; rfl
      subst huv
      simp only [cond_false] at h5
      refine ⟨?_, ?_, ?_, ?_, ?_⟩ <;>
        (simp only [hvt, List.length_append, List.length_cons,
          List.length_nil, cond_false]; omega)
    | some t =>
      have huv : uv = true := by rw [← hv, hvt]; rfl
      subst huv
      simp only [cond_true] at h5
      refine ⟨?_, ?_, ?_, ?_, ?_⟩ <;>
        (simp only [hvt, List.length_append, List.length_cons,
          List.length_nil, cond_true]; omega)
  · exact ⟨h1, h2, h3, h4, h5⟩

theorem strip_inv_step {J W : Type} {uv : Bool} {s : TriangleStrip J W} {v : Vtx J W}
    (hv : v.texcoord.isSome = uv) (hs : strip_inv uv s) :
    strip_inv uv (s.handle_vertex v) := by
  unfold strip_inv at hs ⊢
  obtain ⟨h1, h2, h3, h4, h5⟩ := hs
  unfold TriangleStrip.handle_vertex
  split
  · exact ⟨h1, h2, h3, h4, h5⟩
  · exact ⟨h1, h2, h3, h4, h5⟩
  · cases hvt : v.texcoord with
    | none =>
      have huv : uv = false := by rw [← hv, hvt]; rfl
      subst huv
      simp only [cond_false] at h5
      refine ⟨?_, ?_, ?_, ?_, ?_⟩ <;>
        (dsimp only [TriangleStrip.shift]; simp only [hvt, List.length_append, List.length_cons,
          List.length_nil, cond_false]; omega)
    | some t =>
      have huv : uv = true := by rw [← hv, hvt]; rfl
      subst huv
      simp only [cond_true] at h5
      refine ⟨?_, ?_, ?_, ?_, ?_⟩ <;>
        (dsimp only [TriangleStrip.shift]; simp only [hvt, List.length_append, List.length_cons,
          List.length_nil, cond_true]; omega)
  · cases hvt : v.texcoord with
    | none =>
      have huv : uv = false := by rw [← hv, hvt]; rfl
      subst huv
      simp only [cond_false] at h5
      refine ⟨?_, ?_, ?_, ?_, ?_⟩ <;>
        (dsimp only [TriangleStrip.shift]; simp only [hvt, List.length_append, List.length_cons,
          List.length_nil, cond_false]; omega)
    | some t =>
      have huv : uv = true := by rw [← hv, hvt]; rfl
      subst huv
      simp only [cond_true] at h5
      refine ⟨?_, ?_, ?_, ?_, ?_⟩ <;>
        (dsimp only [TriangleStrip.shift]; simp only [hvt, List.length_append, List.length_cons,
          List.length_nil, cond_true]; omega)
  · exact ⟨h1, h2, h3, h4, h5⟩

theorem fan_inv_step {J W : Type} {uv : Bool} {s : TriangleFan J W} {v : Vtx J W}
    (hv : v.texcoord.isSome = uv) (hs : fan_inv uv s) :
    fan_inv uv (s.handle_vertex v) := by
  unfold fan_inv at hs ⊢
  obtain ⟨h1, h2, h3, h4, h5⟩ := hs
  unfold TriangleFan.handle_vertex
  split
  · exact ⟨h1, h2, h3, h4, h5⟩
  · exact ⟨h1, h2, h3, h4, h5⟩
  · cases hvt : v.texcoord with
    | none =>
      have huv : uv = false := by rw [← hv, hvt]; rfl
      subst huv
      simp only [cond_false] at h5
      refine ⟨?_, ?_, ?_, ?_, ?_⟩ <;>
        (dsimp only [TriangleFan.shift]; simp only [hvt, List.length_append, List.length_cons,
          List.length_nil, cond_false]; omega)
    | some t =>
      have huv : uv = true := by rw [← hv, hvt]; rfl
      subst huv
      simp only [cond_true] at h5
      refine ⟨?_, ?_, ?_, ?_, ?_⟩ <;>
        (dsimp only [TriangleFan.shift]; simp only [hvt, List.length_append, List.length_cons,
          List.length_nil, cond_true]; omega)
  · exact ⟨h1, h2, h3, h4, h5⟩

/-- The vertex loop preserves any handler-state property that each
`handle_vertex` call preserves for vertices whose texcoord presence matches
the uv0 attribute bits. -/
theorem parse_batch_loop_pres {J W S : Type} {step : S → Vtx J W → S}
    {vf flags : Nat} {pd nd uvd : List Nat}
    {getJ : Nat → Option J} {getW : Nat → Option W}
    {normalize : Nat → Nat → Nat → Nat × Nat × Nat} {P : S → Prop}
    (hstep : ∀ s v, (Vtx.texcoord v).isSome = decide (flags &&& 0x300 ≠ 0) →
      P s → P (step s v)) :
    ∀ {count : Nat} {s : S} {r : List Nat} {s' : S} {r' : List Nat},
      parse_batch_loop step vf flags pd nd uvd getJ getW normalize count s r
        = some (s', r') → P s → P s' := by
  intro count
  induction count with
  | zero =>
    intro s r s' r' h hp
    simp [parse_batch_loop] at h
    obtain ⟨rfl, -⟩ := h
    exact hp
  | succ n ih =>
    intro s r s' r' h hp
    rw [parse_batch_loop] at h
    cases hv : parse_vertex vf flags pd nd uvd getJ getW normalize r with
    | none => rw [hv] at h; simp at h
    | some a =>
      obtain ⟨v, r1⟩ := a
      rw [hv] at h
      exact ih h (hstep s v (parse_vertex_spec hv).2 hp)

/-- `parse_batch` carries a handler invariant through to the finished batch. -/
theorem parse_batch_inv {J W S : Type} {step : S → Vtx J W → S}
    {fin : S → Option (Batch J W)} {s0 : S} {vf flags : Nat} {pd nd uvd : List Nat}
    {getJ : Nat → Option J} {getW : Nat → Option W}
    {normalize : Nat → Nat → Nat → Nat × Nat × Nat} {r : List Nat}
    {b : Batch J W} {r' : List Nat} {P : S → Prop} {Q : Batch J W → Prop}
    (hstep : ∀ s v, (Vtx.texcoord v).isSome = decide (flags &&& 0x300 ≠ 0) →
      P s → P (step s v))
    (hfin : ∀ s bb, P s → fin s = some bb → Q bb)
    (hs0 : P s0)
    (h : parse_batch step fin s0 vf flags pd nd uvd getJ getW normalize r
      = some (b, r')) : Q b := by
  unfold parse_batch at h
  by_cases h1 : vf > 2
  · rw [if_pos h1] at h; simp at h
  rw [if_neg h1] at h
  cases h2 : read_u16 r with
  | none => rw [h2] at h; simp at h
  | some a =>
    obtain ⟨count, r1⟩ := a
    rw [h2] at h
    dsimp only at h
    cases h3 : parse_batch_loop step vf flags pd nd uvd getJ getW normalize count s0 r1 with
    | none => rw [h3] at h; simp at h
    | some a2 =>
      obtain ⟨s1, r2⟩ := a2
      rw [h3] at h
      dsimp only at h
      cases h4 : fin s1 with
      | none => rw [h4] at h; simp at h
      | some b2 =>
        rw [h4] at h
        dsimp only at h
        simp at h
        obtain ⟨rfl, -⟩ := h
        exact hfin s1 _ (parse_batch_loop_pres hstep h3 hs0) h4

/-- C9: every batch successfully returned by `DisplayList::parse` has
positions, normals, bone ids and weights of one common length, that length
is a multiple of 3, and texcoords has the same length when the uv0
attribute bits 0x300 are set and length zero otherwise. -/
theorem c9_batch_parallel_arrays (J W : Type) [Inhabited J] [Inhabited W]
    (vertex_attr_flags : Nat) (position_data normal_data uv_float_data : List Nat)
    (getJ : Nat → Option J) (getW : Nat → Option W)
    (normalize : Nat → Nat → Nat → Nat × Nat × Nat)
    (r : List Nat) (batches : List (Batch J W))
    (h : display_list_parse J W vertex_attr_flags position_data normal_data
      uv_float_data getJ getW normalize r = some batches) :
    ∀ b ∈ batches,
      b.normals.length = b.positions.length ∧
      b.bone_ids.length = b.positions.length ∧
      b.weights.length = b.positions.length ∧
      b.positions.length % 3 = 0 ∧
      b.texcoords.length
        = (if vertex_attr_flags &&& 0x300 ≠ 0 then b.positions.length else 0) := by
  have htri0 : tri_inv (decide (vertex_attr_flags &&& 0x300 ≠ 0)) (Triangles.new J W) := by
    cases hx : decide (vertex_attr_flags &&& 0x300 ≠ 0) <;>
      simp [tri_inv, Triangles.new, hx]
  have hstrip0 : strip_inv (decide (vertex_attr_flags &&& 0x300 ≠ 0)) (TriangleStrip.new J W) := by
    cases hx : decide (vertex_attr_flags &&& 0x300 ≠ 0) <;>
      simp [strip_inv, TriangleStrip.new, hx]
  have hfan0 : fan_inv (decide (vertex_attr_flags &&& 0x300 ≠ 0)) (TriangleFan.new J W) := by
    cases hx : decide (vertex_attr_flags &&& 0x300 ≠ 0) <;>
      simp [fan_inv, TriangleFan.new, hx]
  have htrifin : ∀ (s : Triangles J W) (bb : Batch J W),
      tri_inv (decide (vertex_attr_flags &&& 0x300 ≠ 0)) s →
      Triangles.finish s = some bb →
      batch_inv (decide (vertex_attr_flags &&& 0x300 ≠ 0)) bb := by
    intro s bb hs hf
    unfold Triangles.finish at hf
    split at hf
    · simp at hf
      subst hf
      exact hs
    · simp at hf
  have hstripfin : ∀ (s : TriangleStrip J W) (bb : Batch J W),
      strip_inv (decide (vertex_attr_flags &&& 0x300 ≠ 0)) s →
      (fun s => some (TriangleStrip.finish s)) s = some bb →
      batch_inv (decide (vertex_attr_flags &&& 0x300 ≠ 0)) bb := by
    intro s bb hs hf
    simp at hf
    subst hf
    exact hs
  have hfanfin : ∀ (s : TriangleFan J W) (bb : Batch J W),
      fan_inv (decide (vertex_attr_flags &&& 0x300 ≠ 0)) s →
      (fun s => some (TriangleFan.finish s)) s = some bb →
      batch_inv (decide (vertex_attr_flags &&& 0x300 ≠ 0)) bb := by
    intro s bb hs hf
    simp at hf
    subst hf
    exact hs
  have main : ∀ (n : Nat) (r : List Nat) (batches : List (Batch J W)),
      r.length ≤ n →
      display_list_parse J W vertex_attr_flags position_data normal_data
        uv_float_data getJ getW normalize r = some batches →
      ∀ b ∈ batches, batch_inv (decide (vertex_attr_flags &&& 0x300 ≠ 0)) b := by
    intro n
    induction n with
    | zero =>
      intro r batches hlen h
      have hnil : r = [] := List.length_eq_zero.mp (Nat.le_antisymm hlen (Nat.zero_le _))
      subst hnil
      rw [display_list_parse.eq_def] at h
      simp [read_u8] at h
    | succ n ih =>
      intro r batches hlen h
      rw [display_list_parse.eq_def] at h
      cases hr : read_u8 r with
      | none => rw [hr] at h; simp at h
      | some a =>
        obtain ⟨opcode, r1⟩ := a
        rw [hr] at h
        dsimp only at h
        have hr1len : r1.length ≤ n := by
          have := read_u8_length hr
          omega
        by_cases hop : opcode = 0
        · rw [if_pos hop] at h
          simp at h
          subst h
          simp
        rw [if_neg hop] at h
        by_cases hp1 : opcode &&& 0xf8 = 0x90
        · rw [if_pos hp1] at h
          cases hb : parse_batch Triangles.handle_vertex Triangles.finish
              (Triangles.new J W) (opcode &&& 0x07) vertex_attr_flags position_data
              normal_data uv_float_data getJ getW normalize r1 with
          | none => rw [hb] at h; simp at h
          | some a2 =>
            obtain ⟨b, r2⟩ := a2
            rw [hb] at h
            dsimp only at h
            cases hrec : display_list_parse J W vertex_attr_flags position_data
                normal_data uv_float_data getJ getW normalize r2 with
            | none => rw [hrec] at h; simp at h
            | some bs =>
              rw [hrec] at h
              simp at h
              subst h
              intro bb hbb
              rcases List.mem_cons.mp hbb with rfl | hbb
              · exact parse_batch_inv (fun s v hv hs => tri_inv_step hv hs)
                  htrifin htri0 hb
              · exact ih r2 bs (Nat.le_trans (parse_batch_le hb) hr1len) hrec bb hbb
        rw [if_neg hp1] at h
        by_cases hp2 : opcode &&& 0xf8 = 0x98
        · rw [if_pos hp2] at h
          cases hb : parse_batch TriangleStrip.handle_vertex
              (fun s => some (TriangleStrip.finish s))
              (TriangleStrip.new J W) (opcode &&& 0x07) vertex_attr_flags position_data
              normal_data uv_float_data getJ getW normalize r1 with
          | none => rw [hb] at h; simp at h
          | some a2 =>
            obtain ⟨b, r2⟩ := a2
            rw [hb] at h
            dsimp only at h
            cases hrec : display_list_parse J W vertex_attr_flags position_data
                normal_data uv_float_data getJ getW normalize r2 with
            | none => rw [hrec] at h; simp at h
            | some bs =>
              rw [hrec] at h
              simp at h
              subst h
              intro bb hbb
              rcases List.mem_cons.mp hbb with rfl | hbb
              · exact parse_batch_inv (fun s v hv hs => strip_inv_step hv hs)
                  hstripfin hstrip0 hb
              · exact ih r2 bs (Nat.le_trans (parse_batch_le hb) hr1len) hrec bb hbb
        rw [if_neg hp2] at h
        by_cases hp3 : opcode &&& 0xf8 = 0xa0
        · rw [if_pos hp3] at h
          cases hb : parse_batch TriangleFan.handle_vertex
              (fun s => some (TriangleFan.finish s))
              (TriangleFan.new J W) (opcode &&& 0x07) vertex_attr_flags position_data
              normal_data uv_float_data getJ getW normalize r1 with
          | none => rw [hb] at h; simp at h
          | some a2 =>
            obtain ⟨b, r2⟩ := a2
            rw [hb] at h
            dsimp only at h
            cases hrec : display_list_parse J W vertex_attr_flags position_data
                normal_data uv_float_data getJ getW normalize r2 with
            | none => rw [hrec] at h; simp at h
            | some bs =>
              rw [hrec] at h
              simp at h
              subst h
              intro bb hbb
              rcases List.mem_cons.mp hbb with rfl | hbb
              · exact parse_batch_inv (fun s v hv hs => fan_inv_step hv hs)
                  hfanfin hfan0 hb
              · exact ih r2 bs (Nat.le_trans (parse_batch_le hb) hr1len) hrec bb hbb
        rw [if_neg hp3] at h
        simp at h
  intro b hb
  have hres := main r.length r batches (Nat.le_refl _) h b hb
  unfold batch_inv at hres
  obtain ⟨g1, g2, g3, g4, g5⟩ := hres
  refine ⟨g1, g2, g3, g4, ?_⟩
  by_cases hx : vertex_attr_flags &&& 0x300 ≠ 0
  · rw [if_pos hx]
    simpa [hx] using g5
  · rw [if_neg hx]
    simpa [hx] using g5

theorem c9dl_nil :
    display_list_parse Unit Unit 0xf c9pd c9pd [] unit_attr_get unit_attr_get
      (fun _ _ _ => (0, 0, 0)) [0] = some [] := by
  rw [display_list_parse.eq_def]
  split
  · rename_i heq
    simp [read_u8] at heq
  · rename_i opcode r1 heq
    simp [read_u8] at heq
    obtain ⟨rfl, rfl⟩ := heq
    simp

theorem c9pb_eq :
    parse_batch Triangles.handle_vertex Triangles.finish (Triangles.new Unit Unit)
      ((0x90 : Nat) &&& 0x07) 0xf c9pd c9pd [] unit_attr_get unit_attr_get
      (fun _ _ _ => (0, 0, 0)) [0, 3, 0, 0, 0, 0, 0, 0, 0, 0, 0, 0, 0, 0, 0]
    = some (c9batch, [0]) := by decide

theorem c9dl_eq :
    display_list_parse Unit Unit 0xf c9pd c9pd [] unit_attr_get unit_attr_get
      (fun _ _ _ => (0, 0, 0)) c9dl = some [c9batch] := by
  rw [display_list_parse.eq_def]
  split
  · rename_i heq
    simp [read_u8, c9dl] at heq
  · rename_i opcode r1 heq
    simp [read_u8, c9dl] at heq
    obtain ⟨rfl, rfl⟩ := heq
    rw [if_neg (by decide), if_pos (by decide)]
    split
    · rename_i hb
      rw [c9pb_eq] at hb
      simp at hb
    · rename_i b r2 hb
      rw [c9pb_eq] at hb
      simp at hb
      obtain ⟨rfl, rfl⟩ := hb
      rw [c9dl_nil]

/-- Witness for C9: a concrete display list with one three-vertex triangles
batch, decoded end to end. -/
theorem c9_witness :
    (display_list_parse Unit Unit 0xf c9pd c9pd [] unit_attr_get unit_attr_get
      (fun _ _ _ => (0, 0, 0)) c9dl = some [c9batch]) ∧
    ∀ b ∈ [c9batch],
      b.normals.length = b.positions.length ∧
      b.bone_ids.length = b.positions.length ∧
      b.weights.length = b.positions.length ∧
      b.positions.length % 3 = 0 ∧
      b.texcoords.length = (if (0xf : Nat) &&& 0x300 ≠ 0 then b.positions.length else 0) :=
  ⟨c9dl_eq, c9_batch_parallel_arrays Unit Unit 0xf c9pd c9pd [] unit_attr_get
    unit_attr_get (fun _ _ _ => (0, 0, 0)) c9dl [c9batch] c9dl_eq⟩


/- ------------------------- C2: CMPR palette and selection ---------------- -/

theorem extend5_lt : ∀ x, x < 32 → ∀ y, y < 32 → (extend5 x < extend5 y ↔ x < y) := by
  decide

theorem extend6_lt : ∀ x, x < 64 → ∀ y, y < 64 → (extend6 x < extend6 y ↔ x < y) := by
  decide

/-- Rust array comparison of the decoded RGBA colors agrees with numeric
comparison of the encoded 16-bit values. -/
theorem arrGt_decode_rgb565 (a b : Nat) (ha : a < 65536) (hb : b < 65536) :
    arrGt (decode_rgb565 a) (decode_rgb565 b) = decide (b < a) := by
  have hmask31 : ∀ x : Nat, x &&& 31 = x % 32 := fun x => by
    have h := Nat.and_pow_two_sub_one_eq_mod x 5
    norm_num at h
    exact h
  have hmask63 : ∀ x : Nat, x &&& 63 = x % 64 := fun x => by
    have h := Nat.and_pow_two_sub_one_eq_mod x 6
    norm_num at h
    exact h
  have hsr11 : ∀ x : Nat, x >>> 11 = x / 2048 := fun x => by
    have h := Nat.shiftRight_eq_div_pow x 11
    norm_num at h
    exact h
  have hsr5 : ∀ x : Nat, x >>> 5 = x / 32 := fun x => by
    have h := Nat.shiftRight_eq_div_pow x 5
    norm_num at h
    exact h
  have hra : a / 2048 % 32 < 32 := Nat.mod_lt _ (by norm_num)
  have hrb : b / 2048 % 32 < 32 := Nat.mod_lt _ (by norm_num)
  have hga : a / 32 % 64 < 64 := Nat.mod_lt _ (by norm_num)
  have hgb : b / 32 % 64 < 64 := Nat.mod_lt _ (by norm_num)
  have hba : a % 32 < 32 := Nat.mod_lt _ (by norm_num)
  have hbb : b % 32 < 32 := Nat.mod_lt _ (by norm_num)
  simp only [decode_rgb565, hmask31, hmask63, hsr11, hsr5, arrGt]
  rcases Nat.lt_trichotomy (a / 2048 % 32) (b / 2048 % 32) with h | h | h
  · rw [if_neg (by rw [extend5_lt _ hrb _ hra]; omega),
      if_pos (by rw [extend5_lt _ hra _ hrb]; exact h)]
    have hlt : ¬ b < a := by omega
    simp [hlt]
  · rw [if_neg (by rw [extend5_lt _ hrb _ hra]; omega),
      if_neg (by rw [extend5_lt _ hra _ hrb]; omega)]
    rcases Nat.lt_trichotomy (a / 32 % 64) (b / 32 % 64) with hg | hg | hg
    · rw [if_neg (by rw [extend6_lt _ hgb _ hga]; omega),
        if_pos (by rw [extend6_lt _ hga _ hgb]; exact hg)]
      have hlt : ¬ b < a := by omega
      simp [hlt]
    · rw [if_neg (by rw [extend6_lt _ hgb _ hga]; omega),
        if_neg (by rw [extend6_lt _ hga _ hgb]; omega)]
      rcases Nat.lt_trichotomy (a % 32) (b % 32) with hc | hc | hc
      · rw [if_neg (by rw [extend5_lt _ hbb _ hba]; omega),
          if_pos (by rw [extend5_lt _ hba _ hbb]; exact hc)]
        have hlt : ¬ b < a := by omega
        simp [hlt]
      · rw [if_neg (by rw [extend5_lt _ hbb _ hba]; omega),
          if_neg (by rw [extend5_lt _ hba _ hbb]; omega)]
        have hab : a = b := by omega
        have hlt : ¬ b < a := by omega
        simp [hlt]
      · rw [if_pos (by rw [extend5_lt _ hbb _ hba]; exact hc)]
        have hlt : b < a := by omega
        simp [hlt]
    · rw [if_pos (by rw [extend6_lt _ hgb _ hga]; exact hg)]
      have hlt : b < a := by omega
      simp [hlt]
  · rw [if_pos (by rw [extend5_lt _ hrb _ hra]; exact h)]
    have hlt : b < a := by omega
    simp [hlt]

/-- C2: the 5- and 6-bit channel extensions replicate low bits into the
vacated high bits exactly; and for every texel of one CMPR sub-block (bytes
`b0..b7`, then any tail) the decoder builds the palette
[A, B, (2A+B)/3, (A+2B)/3] when endpoint color A numerically exceeds
endpoint color B and [A, B, (A+B)/2, (0,0,0,0)] otherwise (per-channel
integer arithmetic on the bit-extended channels), then selects the entry
named by the texel's 2-bit index. -/
theorem c2_cmpr_palette_selection (b0 b1 b2 b3 b4 b5 b6 b7 : Nat)
    (rest : List Nat) (h0 : b0 < 256) (h1 : b1 < 256) (h2 : b2 < 256)
    (h3 : b3 < 256) (x y : Nat) :
    (∀ v, extend5 v = ((v <<< 3) ||| (v >>> 2))) ∧
    (∀ v, extend6 v = ((v <<< 2) ||| (v >>> 4))) ∧
    cmpr_block_texel (b0 :: b1 :: b2 :: b3 :: b4 :: b5 :: b6 :: b7 :: rest) x y
      = some ((cmpr_palette_spec (256 * b0 + b1) (256 * b2 + b3)).getD
          (([b4, b5, b6, b7].getD (y % 4) 0 >>> (2 * (3 - x % 4))) &&& 3)
          [0, 0, 0, 0]) := by
  refine ⟨fun v => rfl, fun v => rfl, ?_⟩
  unfold cmpr_block_texel cmpr_palette_spec
  simp only [read_u16, read_u8]
  rw [arrGt_decode_rgb565 _ _ (by omega) (by omega)]
  have hy : y % 4 = 0 ∨ y % 4 = 1 ∨ y % 4 = 2 ∨ y % 4 = 3 := by omega
  by_cases hc : 256 * b2 + b3 < 256 * b0 + b1
  · simp only [hc]
    rcases hy with hy | hy | hy | hy <;> rw [hy] <;> simp [List.get?]
  · simp only [hc]
    rcases hy with hy | hy | hy | hy <;> rw [hy] <;> simp [List.get?]

/-- Witness for C2 at one concrete sub-block and texel. -/
theorem c2_witness :
    ((248 : Nat) < 256 ∧ (0 : Nat) < 256 ∧ (7 : Nat) < 256 ∧ (224 : Nat) < 256) ∧
    ((∀ v, extend5 v = ((v <<< 3) ||| (v >>> 2))) ∧
     (∀ v, extend6 v = ((v <<< 2) ||| (v >>> 4))) ∧
     cmpr_block_texel (248 :: 0 :: 7 :: 224 :: 27 :: 0 :: 0 :: 0 :: ([] : List Nat)) 1 0
       = some ((cmpr_palette_spec (256 * 248 + 0) (256 * 7 + 224)).getD
           ((([27, 0, 0, 0] : List Nat).getD (0 % 4) 0 >>> (2 * (3 - 1 % 4))) &&& 3)
           [0, 0, 0, 0])) :=
  ⟨⟨by decide, by decide, by decide, by decide⟩,
   c2_cmpr_palette_selection 248 0 7 224 27 0 0 0 [] (by decide) (by decide)
     (by decide) (by decide) 1 0⟩

/- ------------------------- C5: row output order -------------------------- -/

theorem range_reverse_eq (n : Nat) :
    (List.range n).reverse = (List.range n).map (fun i => n - 1 - i) := by
  induction n with
  | zero => simp
  | succ n ih =>
    conv_lhs => rw [List.range_succ]
    conv_rhs => rw [List.range_succ_eq_map]
    simp only [List.reverse_append, List.reverse_cons, List.reverse_nil,
      List.nil_append, List.singleton_append, List.map_cons, List.map_map]
    congr 1
    rw [ih]
    apply List.map_congr_left
    intro i _
    simp only [Function.comp]
    omega

/-- The double inversion in each dump loop cancels: the rows are produced
in stored order `y = 0, 1, …, height-1`. -/
theorem dumpBody_eq (w h : Nat) (pix : Nat → Nat → Option (List Nat)) :
    dumpBody w h pix
      = joinM ((List.range h).map (fun y => pixelRow w (fun x => pix x y))) := by
  unfold dumpBody
  rw [range_reverse_eq, List.map_map]
  apply congrArg
  apply List.map_congr_left
  intro y hy
  have hy2 : y < h := List.mem_range.mp hy
  simp only [Function.comp]
  have he : h - (h - 1 - y) - 1 = y := by omega
  rw [he]

theorem joinM_length {k : Nat} : ∀ {l : List (Option (List Nat))} {out : List Nat},
    joinM l = some out → (∀ o ∈ l, ∀ v, o = some v → v.length = k) →
    out.length = k * l.length := by
  intro l
  induction l with
  | nil =>
    intro out h _
    simp [joinM] at h
    subst h
    simp
  | cons o rest ih =>
    intro out h hk
    unfold joinM at h
    cases ho : o with
    | none => rw [ho] at h; simp at h
    | some v =>
      rw [ho] at h
      dsimp only at h
      simp only [Option.map_eq_some'] at h
      obtain ⟨tail, htail, rfl⟩ := h
      have hv : v.length = k := hk o (by simp) v ho
      have ht := ih htail (fun o2 ho2 v2 hv2 => hk o2 (by simp [ho2]) v2 hv2)
      simp [hv, ht]
      ring

theorem joinM_getD_row {k : Nat} : ∀ {l : List (Option (List Nat))} {out : List Nat},
    joinM l = some out → (∀ o ∈ l, ∀ v, o = some v → v.length = k) →
    ∀ r, r < l.length → l.getD r none = some ((out.drop (k * r)).take k) := by
  intro l
  induction l with
  | nil => intro out _ _ r hr; simp at hr
  | cons o rest ih =>
    intro out h hk r hr
    unfold joinM at h
    cases ho : o with
    | none => rw [ho] at h; simp at h
    | some v =>
      rw [ho] at h
      dsimp only at h
      simp only [Option.map_eq_some'] at h
      obtain ⟨tail, htail, rfl⟩ := h
      have hv : v.length = k := hk o (by simp) v ho
      cases r with
      | zero =>
        simp only [List.getD_cons_zero, ho, Nat.mul_zero, List.drop_zero]
        rw [List.take_left' hv]
      | succ r =>
        have hrec := ih htail (fun o2 ho2 v2 hv2 => hk o2 (by simp [ho2]) v2 hv2)
          r (by simpa using hr)
        simp only [List.getD_cons_succ]
        rw [hrec]
        have hdrop : (v ++ tail).drop (k * (r + 1)) = tail.drop (k * r) := by
          have : k * (r + 1) = v.length + k * r := by rw [hv]; ring
        
          rw [this, ← List.drop_drop, List.drop_left]
        rw [hdrop]

/-- Rows-in-stored-order property of the shared dump loop. -/
theorem dumpBody_rows {w h : Nat} {pix : Nat → Nat → Option (List Nat)}
    {d : List Nat} (hd : dumpBody w h pix = some d)
    (hpix : ∀ x y l, pix x y = some l → l.length = 4) :
    ∀ r, r < h →
      pixelRow w (fun x => pix x r) = some ((d.drop (4 * w * r)).take (4 * w)) := by
  rw [dumpBody_eq] at hd
  intro r hr
  have hrowk : ∀ o ∈ (List.range h).map (fun y => pixelRow w (fun x => pix x y)),
      ∀ v, o = some v → v.length = 4 * w := by
    intro o ho v hv
    simp only [List.mem_map] at ho
    obtain ⟨y, -, rfl⟩ := ho
    unfold pixelRow at hv
    have hl := joinM_length hv (by
      intro o2 ho2 v2 hv2
      simp only [List.mem_map] at ho2
      obtain ⟨x, -, rfl⟩ := ho2
      exact hpix x y v2 hv2)
    simpa using hl
  have hget := joinM_getD_row hd hrowk r (by simpa using hr)
  rw [getD_map (fun y => pixelRow w (fun x => pix x y)) (List.range h) r
    (by simpa using hr) none 0] at hget
  have hrange : (List.range h).getD r 0 = r := by
    simp [List.getD_eq_getElem?_getD, List.getElem?_range hr]
  rw [hrange] at hget
  have hmul : 4 * w * r = 4 * w * r := rfl
  exact hget

theorem decode_rgb565_length (e : Nat) : (decode_rgb565 e).length = 4 := rfl

theorem decode_rgb5a3_length (e : Nat) : (decode_rgb5a3 e).length = 4 := by
  unfold decode_rgb5a3
  split <;> rfl

theorem pix_i4_length {data : List Nat} {bw x y : Nat} {l : List Nat}
    (h : pix_i4 data bw x y = some l) : l.length = 4 := by
  unfold pix_i4 at h
  simp only [Option.map_eq_some'] at h
  obtain ⟨v, -, rfl⟩ := h
  rfl

theorem pix_i8_length {data : List Nat} {bw x y : Nat} {l : List Nat}
    (h : pix_i8 data bw x y = some l) : l.length = 4 := by
  unfold pix_i8 at h
  simp only [Option.map_eq_some'] at h
  obtain ⟨v, -, rfl⟩ := h
  rfl

theorem pix_ia4_length {data : List Nat} {bw x y : Nat} {l : List Nat}
    (h : pix_ia4 data bw x y = some l) : l.length = 4 := by
  unfold pix_ia4 at h
  simp only [Option.map_eq_some'] at h
  obtain ⟨v, -, rfl⟩ := h
  rfl

theorem pix_ia8_length {data : List Nat} {bw x y : Nat} {l : List Nat}
    (h : pix_ia8 data bw x y = some l) : l.length = 4 := by
  unfold pix_ia8 at h
  dsimp only at h
  cases h1 : data.get? (32 * (bw * (y / 4) + x / 4) + 2 * (4 * (y % 4) + x % 4)) with
  | none => rw [h1] at h; simp at h
  | some i =>
    rw [h1] at h
    dsimp only at h
    cases h2 : data.get? (32 * (bw * (y / 4) + x / 4) + 2 * (4 * (y % 4) + x % 4) + 1) with
    | none => rw [h2] at h; simp at h
    | some a =>
      rw [h2] at h
      simp at h
      subst h
      rfl

theorem pix_rgb565_length {data : List Nat} {bw x y : Nat} {l : List Nat}
    (h : pix_rgb565 data bw x y = some l) : l.length = 4 := by
  unfold pix_rgb565 at h
  simp only [Option.map_eq_some'] at h
  obtain ⟨v, -, rfl⟩ := h
  exact decode_rgb565_length _

theorem pix_rgb5a3_length {data : List Nat} {bw x y : Nat} {l : List Nat}
    (h : pix_rgb5a3 data bw x y = some l) : l.length = 4 := by
  unfold pix_rgb5a3 at h
  simp only [Option.map_eq_some'] at h
  obtain ⟨v, -, rfl⟩ := h
  exact decode_rgb5a3_length _

theorem pix_rgba8_length {data : List Nat} {bw x y : Nat} {l : List Nat}
    (h : pix_rgba8 data bw x y = some l) : l.length = 4 := by
  unfold pix_rgba8 at h
  dsimp only at h
  cases h1 : data.get? (64 * (bw * (y / 4) + x / 4) + 2 * (4 * (y % 4) + x % 4)) with
  | none => rw [h1] at h; simp at h
  | some a =>
    rw [h1] at h
    dsimp only at h
    cases h2 : data.get? (64 * (bw * (y / 4) + x / 4) + 2 * (4 * (y % 4) + x % 4) + 1) with
    | none => rw [h2] at h; simp at h
    | some r =>
      rw [h2] at h
      dsimp only at h
      cases h3 : data.get? (64 * (bw * (y / 4) + x / 4) + 2 * (4 * (y % 4) + x % 4) + 32) with
      | none => rw [h3] at h; simp at h
      | some g =>
        rw [h3] at h
        dsimp only at h
        cases h4 : data.get? (64 * (bw * (y / 4) + x / 4) + 2 * (4 * (y % 4) + x % 4) + 33) with
        | none => rw [h4] at h; simp at h
        | some b =>
          rw [h4] at h
          simp at h
          subst h
          rfl

theorem palette_fetcher_length {pf : Nat} {f : List Nat → Nat → Option (List Nat)}
    (h : palette_fetcher pf = some f) :
    ∀ pal i l, f pal i = some l → l.length = 4 := by
  unfold palette_fetcher at h
  rcases pf with _ | _ | _ | pf
  · simp at h
  · simp at h
    subst h
    intro pal i l hl
    simp only [Option.map_eq_some'] at hl
    obtain ⟨v, -, rfl⟩ := hl
    exact decode_rgb565_length _
  · simp at h
    subst h
    intro pal i l hl
    simp only [Option.map_eq_some'] at hl
    obtain ⟨v, -, rfl⟩ := hl
    exact decode_rgb5a3_length _
  · simp at h

theorem pix_c4_length {f : List Nat → Nat → Option (List Nat)}
    {pal body : List Nat} {bw x y : Nat} {l : List Nat}
    (hf : ∀ pal2 i l2, f pal2 i = some l2 → l2.length = 4)
    (h : pix_c4 f pal body bw x y = some l) : l.length = 4 := by
  unfold pix_c4 at h
  dsimp only at h
  cases h1 : body.get? (32 * (bw * (y / 8) + x / 8) + (8 * (y % 8) + x % 8) / 2) with
  | none => rw [h1] at h; simp at h
  | some v =>
    rw [h1] at h
    dsimp only at h
    exact hf _ _ _ h

theorem pix_c8_length {f : List Nat → Nat → Option (List Nat)}
    {pal body : List Nat} {bw x y : Nat} {l : List Nat}
    (hf : ∀ pal2 i l2, f pal2 i = some l2 → l2.length = 4)
    (h : pix_c8 f pal body bw x y = some l) : l.length = 4 := by
  unfold pix_c8 at h
  dsimp only at h
  cases h1 : body.get? (32 * (bw * (y / 4) + x / 8) + 1 * (8 * (y % 4) + x % 8)) with
  | none => rw [h1] at h; simp at h
  | some c =>
    rw [h1] at h
    dsimp only at h
    exact hf _ _ _ h

theorem getD_palette_length {p : List (List Nat)} (hp : ∀ e ∈ p, e.length = 4)
    (i : Nat) : (p.getD i [0, 0, 0, 0]).length = 4 := by
  rcases hq : p[i]? with _ | e
  · simp [List.getD_eq_getElem?_getD, hq]
  · simp only [List.getD_eq_getElem?_getD, hq, Option.getD_some]
    exact hp e (List.getElem?_mem hq)

theorem cmpr_block_texel_length {blk : List Nat} {x y : Nat} {l : List Nat}
    (h : cmpr_block_texel blk x y = some l) : l.length = 4 := by
  unfold cmpr_block_texel at h
  cases h1 : read_u16 blk with
  | none => rw [h1] at h; simp at h
  | some a =>
    obtain ⟨ca, blk1⟩ := a
    rw [h1] at h
    dsimp only at h
    cases h2 : read_u16 blk1 with
    | none => rw [h2] at h; simp at h
    | some a2 =>
      obtain ⟨cb, blk2⟩ := a2
      rw [h2] at h
      dsimp only at h
      cases h3 : blk2.get? (y % 4) with
      | none => rw [h3] at h; simp at h
      | some row =>
        rw [h3] at h
        dsimp only at h
        simp only [Option.some.injEq] at h
        subst h
        apply getD_palette_length
        intro e he
        split at he <;>
          (simp at he
           rcases he with rfl | rfl | rfl | rfl <;>
             first
             | exact decode_rgb565_length _
             | rfl)

theorem pix_cmpr_length {data : List Nat} {bw x y : Nat} {l : List Nat}
    (h : pix_cmpr data bw x y = some l) : l.length = 4 := by
  unfold pix_cmpr at h
  dsimp only at h
  split at h
  · exact cmpr_block_texel_length h
  · simp at h

theorem c4_header_fetch {data : List Nat} {f : List Nat → Nat → Option (List Nat)}
    {pal body : List Nat} (h : c4_header data = some (f, pal, body)) :
    ∀ pal2 i l, f pal2 i = some l → l.length = 4 := by
  unfold c4_header at h
  cases h1 : read_u32 data with
  | none => rw [h1] at h; simp at h
  | some a =>
    obtain ⟨pf, r1⟩ := a
    rw [h1] at h
    dsimp only at h
    cases h2 : palette_fetcher pf with
    | none => rw [h2] at h; simp at h
    | some fetch =>
      rw [h2] at h
      dsimp only at h
      cases h3 : read_u16 r1 with
      | none => rw [h3] at h; simp at h
      | some a2 =>
        obtain ⟨v1, r2⟩ := a2
        rw [h3] at h
        dsimp only at h
        split at h
        · cases h4 : read_u16 r2 with
          | none => rw [h4] at h; simp at h
          | some a3 =>
            obtain ⟨v2, r3⟩ := a3
            rw [h4] at h
            dsimp only at h
            split at h
            · split at h
              · simp at h
                obtain ⟨rfl, -, -⟩ := h
                exact palette_fetcher_length h2
              · simp at h
            · simp at h
        · simp at h

theorem c8_header_fetch {data : List Nat} {f : List Nat → Nat → Option (List Nat)}
    {pal body : List Nat} (h : c8_header data = some (f, pal, body)) :
    ∀ pal2 i l, f pal2 i = some l → l.length = 4 := by
  unfold c8_header at h
  cases h1 : read_u32 data with
  | none => rw [h1] at h; simp at h
  | some a =>
    obtain ⟨pf, r1⟩ := a
    rw [h1] at h
    dsimp only at h
    cases h2 : palette_fetcher pf with
    | none => rw [h2] at h; simp at h
    | some fetch =>
      rw [h2] at h
      dsimp only at h
      cases h3 : read_u16 r1 with
      | none => rw [h3] at h; simp at h
      | some a2 =>
        obtain ⟨v1, r2⟩ := a2
        rw [h3] at h
        dsimp only at h
        split at h
        · cases h4 : read_u16 r2 with
          | none => rw [h4] at h; simp at h
          | some a3 =>
            obtain ⟨v2, r3⟩ := a3
            rw [h4] at h
            dsimp only at h
            split at h
            · split at h
              · simp at h
                obtain ⟨rfl, -, -⟩ := h
                exact palette_fetcher_length h2
              · simp at h
            · simp at h
        · simp at h

/-- C5 (amended): for every one of the ten texture formats, for every
width, height and payload, output row `r` of the decoded raster holds the
pixels decoded from stored row `r` — the `(0..height).rev()` loop and its
`height - y - 1` re-inversion cancel, so rows come out in stored order,
not vertically mirrored. -/
theorem c5_rows_in_stored_order :
    (∀ (data : List Nat) (w h : Nat) (d : List Nat), dump_i4 data w h = some d →
      ∀ r, r < h → pixelRow w (fun x => pix_i4 data ((w + 7) / 8) x r)
        = some ((d.drop (4 * w * r)).take (4 * w))) ∧
    (∀ (data : List Nat) (w h : Nat) (d : List Nat), dump_i8 data w h = some d →
      ∀ r, r < h → pixelRow w (fun x => pix_i8 data ((w + 7) / 8) x r)
        = some ((d.drop (4 * w * r)).take (4 * w))) ∧
    (∀ (data : List Nat) (w h : Nat) (d : List Nat), dump_ia4 data w h = some d →
      ∀ r, r < h → pixelRow w (fun x => pix_ia4 data ((w + 7) / 8) x r)
        = some ((d.drop (4 * w * r)).take (4 * w))) ∧
    (∀ (data : List Nat) (w h : Nat) (d : List Nat), dump_ia8 data w h = some d →
      ∀ r, r < h → pixelRow w (fun x => pix_ia8 data ((w + 3) / 4) x r)
        = some ((d.drop (4 * w * r)).take (4 * w))) ∧
    (∀ (data : List Nat) (w h : Nat) (d : List Nat) f (pal body : List Nat),
      c4_header data = some (f, pal, body) → dump_c4 data w h = some d →
      ∀ r, r < h → pixelRow w (fun x => pix_c4 f pal body ((w + 7) / 8) x r)
        = some ((d.drop (4 * w * r)).take (4 * w))) ∧
    (∀ (data : List Nat) (w h : Nat) (d : List Nat) f (pal body : List Nat),
      c8_header data = some (f, pal, body) → dump_c8 data w h = some d →
      ∀ r, r < h → pixelRow w (fun x => pix_c8 f pal body ((w + 7) / 8) x r)
        = some ((d.drop (4 * w * r)).take (4 * w))) ∧
    (∀ (data : List Nat) (w h : Nat) (d : List Nat), dump_rgb565 data w h = some d →
      ∀ r, r < h → pixelRow w (fun x => pix_rgb565 data ((w + 3) / 4) x r)
        = some ((d.drop (4 * w * r)).take (4 * w))) ∧
    (∀ (data : List Nat) (w h : Nat) (d : List Nat), dump_rgb5a3 data w h = some d →
      ∀ r, r < h → pixelRow w (fun x => pix_rgb5a3 data ((w + 3) / 4) x r)
        = some ((d.drop (4 * w * r)).take (4 * w))) ∧
    (∀ (data : List Nat) (w h : Nat) (d : List Nat), dump_rgba8 data w h = some d →
      ∀ r, r < h → pixelRow w (fun x => pix_rgba8 data ((w + 3) / 4) x r)
        = some ((d.drop (4 * w * r)).take (4 * w))) ∧
    (∀ (data : List Nat) (w h : Nat) (d : List Nat), dump_cmpr data w h = some d →
      ∀ r, r < h → pixelRow w (fun x => pix_cmpr data ((w + 7) / 8) x r)
        = some ((d.drop (4 * w * r)).take (4 * w))) := by
  refine ⟨?_, ?_, ?_, ?_, ?_, ?_, ?_, ?_, ?_, ?_⟩
  · intro data w h d hd r hr
    unfold dump_i4 at hd
    exact dumpBody_rows hd (fun x y l hl => pix_i4_length hl) r hr
  · intro data w h d hd r hr
    unfold dump_i8 at hd
    exact dumpBody_rows hd (fun x y l hl => pix_i8_length hl) r hr
  · intro data w h d hd r hr
    unfold dump_ia4 at hd
    exact dumpBody_rows hd (fun x y l hl => pix_ia4_length hl) r hr
  · intro data w h d hd r hr
    unfold dump_ia8 at hd
    exact dumpBody_rows hd (fun x y l hl => pix_ia8_length hl) r hr
  · intro data w h d f pal body hh hd r hr
    unfold dump_c4 at hd
    rw [hh] at hd
    dsimp only at hd
    exact dumpBody_rows hd (fun x y l hl => pix_c4_length (c4_header_fetch hh) hl) r hr
  · intro data w h d f pal body hh hd r hr
    unfold dump_c8 at hd
    rw [hh] at hd
    dsimp only at hd
    exact dumpBody_rows hd (fun x y l hl => pix_c8_length (c8_header_fetch hh) hl) r hr
  · intro data w h d hd r hr
    unfold dump_rgb565 at hd
    exact dumpBody_rows hd (fun x y l hl => pix_rgb565_length hl) r hr
  · intro data w h d hd r hr
    unfold dump_rgb5a3 at hd
    exact dumpBody_rows hd (fun x y l hl => pix_rgb5a3_length hl) r hr
  · intro data w h d hd r hr
    unfold dump_rgba8 at hd
    exact dumpBody_rows hd (fun x y l hl => pix_rgba8_length hl) r hr
  · intro data w h d hd r hr
    unfold dump_cmpr at hd
    exact dumpBody_rows hd (fun x y l hl => pix_cmpr_length hl) r hr

/-- Counterexample to C5 as stated: for the concrete I4 texture `c5data`
(width 8, height 2, stored row 0 black, stored row 1 white), output row 0
is NOT the decode of stored row `height - 1 - 0 = 1`; the decoder emits
stored row 0 first. -/
theorem c5_counterexample :
    dump_i4 c5data 8 2 = some c5out ∧
    ¬ (pixelRow 8 (fun x => pix_i4 c5data ((8 + 7) / 8) x (2 - 1 - 0))
        = some ((c5out.drop (4 * 8 * 0)).take (4 * 8))) := by
  constructor
  · decide
  · decide

/-- Witness for the amended C5 theorem at the concrete I4 texture. -/
theorem c5_witness :
    dump_i4 c5data 8 2 = some c5out ∧
    pixelRow 8 (fun x => pix_i4 c5data ((8 + 7) / 8) x 0)
      = some ((c5out.drop (4 * 8 * 0)).take (4 * 8)) :=
  ⟨by decide, c5_rows_in_stored_order.1 c5data 8 2 c5out (by decide) 0 (by decide)⟩

/- ------------------------- C3: skin weight-count consistency ------------- -/

theorem cskr_loop_sum (n : Nat) :
    ∀ (r : List Nat), r.length ≤ n →
    ∀ (wc total : Nat) (acc gs : List VertexGroup) (tot : Nat) (rest : List Nat),
      total = (acc.map (fun g => g.weights.length)).sum →
      cskr_loop wc total acc r = RRes.ok (gs, tot, rest) →
      tot = (gs.map (fun g => g.weights.length)).sum := by
  induction n with
  | zero =>
    intro r hlen wc total acc gs tot rest hinv h
    rw [cskr_loop.eq_def] at h
    by_cases hc : total < wc
    · rw [if_pos hc] at h
      split at h
      · simp at h
      · simp at h
      · rename_i g r2 hg
        have := vg_read_lt hg
        omega
    · rw [if_neg hc] at h
      simp at h
      obtain ⟨rfl, rfl, -⟩ := h
      exact hinv
  | succ n ih =>
    intro r hlen wc total acc gs tot rest hinv h
    rw [cskr_loop.eq_def] at h
    by_cases hc : total < wc
    · rw [if_pos hc] at h
      split at h
      · simp at h
      · simp at h
      · rename_i g r2 hg
        have hlt := vg_read_lt hg
        refine ih r2 (by omega) wc (total + g.weights.length) (acc ++ [g]) gs tot rest ?_ h
        simp [hinv]
    · rw [if_neg hc] at h
      simp at h
      obtain ⟨rfl, rfl, -⟩ := h
      exact hinv

/-- C3 (amended): a skin is returned only when the sum of the per-group
weight counts equals the declared total; a mismatch never yields a skin
(the overshoot case aborts with the `assert_eq!` panic, not a returned
error). -/
theorem c3_skin_weight_sum (r : List Nat) (wc : Nat) (r1 : List Nat)
    (hwc : read_u32 r = some (wc, r1)) (c : Cskr) (rest : List Nat)
    (h : Cskr.read_from r = RRes.ok (c, rest)) :
    (c.vertex_groups.map (fun g => g.weights.length)).sum = wc := by
  unfold Cskr.read_from at h
  rw [hwc] at h
  dsimp only at h
  cases hl : cskr_loop wc 0 [] r1 with
  | fail => rw [hl] at h; simp at h
  | crash => rw [hl] at h; simp at h
  | ok a =>
    obtain ⟨gs, total, r2⟩ := a
    rw [hl] at h
    dsimp only at h
    split at h
    · rename_i htot
      simp at h
      obtain ⟨rfl, -⟩ := h
      have := cskr_loop_sum r1.length r1 (Nat.le_refl _) wc 0 [] gs total r2 (by simp) hl
      simp only [← this]
      exact htot
    · simp at h

theorem c3loop_eval :
    cskr_loop 1 0 [] (c3bytes.drop 4)
      = RRes.ok ([⟨[⟨0, 0⟩, ⟨0, 0⟩], 5⟩], 2, []) := by
  rw [cskr_loop.eq_def, if_pos (by decide : (0 : Nat) < 1)]
  split
  · rename_i hg
    rw [show VertexGroup.read_from (c3bytes.drop 4)
      = RRes.ok (⟨[⟨0, 0⟩, ⟨0, 0⟩], 5⟩, []) from by decide] at hg
    simp at hg
  · rename_i hg
    rw [show VertexGroup.read_from (c3bytes.drop 4)
      = RRes.ok (⟨[⟨0, 0⟩, ⟨0, 0⟩], 5⟩, []) from by decide] at hg
    simp at hg
  · rename_i g r2 hg
    rw [show VertexGroup.read_from (c3bytes.drop 4)
      = RRes.ok (⟨[⟨0, 0⟩, ⟨0, 0⟩], 5⟩, []) from by decide] at hg
    simp at hg
    obtain ⟨rfl, rfl⟩ := hg
    rw [cskr_loop.eq_def]
    norm_num

theorem c3bytes_eval : Cskr.read_from c3bytes = RRes.crash := by
  unfold Cskr.read_from
  rw [show read_u32 c3bytes = some (1, c3bytes.drop 4) from by decide]
  dsimp only
  rw [c3loop_eval]
  norm_num

/-- Counterexample to C3 as stated: on `c3bytes` (declared total 1, one
group carrying 2 weights) the decoder panics via `assert_eq!` instead of
returning an error; there is no `InconsistentSkin`/`UnexpectedFormat`
error return on this path. -/
theorem c3_counterexample :
    Cskr.read_from c3bytes = RRes.crash ∧
    RRes.crash ≠ (RRes.fail : RRes (Cskr × List Nat)) :=
  ⟨c3bytes_eval, by simp⟩

theorem c3good_loop_eval :
    cskr_loop 1 0 [] (c3good.drop 4)
      = RRes.ok ([⟨[⟨0, 0⟩], 7⟩], 1, []) := by
  rw [cskr_loop.eq_def, if_pos (by decide : (0 : Nat) < 1)]
  split
  · rename_i hg
    rw [show VertexGroup.read_from (c3good.drop 4)
      = RRes.ok (⟨[⟨0, 0⟩], 7⟩, []) from by decide] at hg
    simp at hg
  · rename_i hg
    rw [show VertexGroup.read_from (c3good.drop 4)
      = RRes.ok (⟨[⟨0, 0⟩], 7⟩, []) from by decide] at hg
    simp at hg
  · rename_i g r2 hg
    rw [show VertexGroup.read_from (c3good.drop 4)
      = RRes.ok (⟨[⟨0, 0⟩], 7⟩, []) from by decide] at hg
    simp at hg
    obtain ⟨rfl, rfl⟩ := hg
    rw [cskr_loop.eq_def]
    norm_num

theorem c3good_eval :
    Cskr.read_from c3good = RRes.ok (⟨[⟨[⟨0, 0⟩], 7⟩]⟩, []) := by
  unfold Cskr.read_from
  rw [show read_u32 c3good = some (1, c3good.drop 4) from by decide]
  dsimp only
  rw [c3good_loop_eval]
  norm_num

/-- Witness for the amended C3 theorem at a consistent concrete skin. -/
theorem c3_witness :
    read_u32 c3good = some (1, c3good.drop 4) ∧
    Cskr.read_from c3good = RRes.ok (⟨[⟨[⟨0, 0⟩], 7⟩]⟩, []) ∧
    ((Cskr.vertex_groups ⟨[⟨[⟨0, 0⟩], 7⟩]⟩).map (fun g => g.weights.length)).sum = 1 :=
  ⟨by decide, c3good_eval,
   c3_skin_weight_sum c3good 1 (c3good.drop 4) (by decide) ⟨[⟨[⟨0, 0⟩], 7⟩]⟩ []
     c3good_eval⟩

/- ------------------------- C4: compressed resource resolution ----------- -/

/-- C4 (amended): for a compression-1 entry with a valid size prefix, a
decompressor error is propagated as a returned error; a successful
`decompress` call that does not reach `StreamEnd` aborts via the
`assert_eq!` panic, returning no error value; and whenever `StreamEnd` is
reached the call returns `Ok` with the buffer of exactly the declared
size, its front holding the produced bytes — a stream shorter than the
declared size is silently zero-padded rather than rejected. -/
theorem c4_decompressed_entry (inflate : List Nat → Nat → InflResult)
    (e : ResourceTableEntry) (hc : e.compression = 1) (size : Nat)
    (r1 : List Nat) (hs : read_u32 e.data = some (size, r1)) :
    (inflate (e.data.drop 4) size = InflResult.err →
      entryData inflate e = RRes.fail) ∧
    (∀ status out,
      inflate (e.data.drop 4) size = InflResult.success status out →
      status ≠ InflStatus.streamEnd → entryData inflate e = RRes.crash) ∧
    (∀ out,
      inflate (e.data.drop 4) size = InflResult.success InflStatus.streamEnd out →
      entryData inflate e = RRes.ok ((out ++ List.replicate size 0).take size) ∧
      ((out ++ List.replicate size 0).take size).length = size) := by
  unfold entryData
  rw [hc, if_neg (by decide), if_pos rfl, hs]
  dsimp only
  refine ⟨?_, ?_, ?_⟩
  · intro h
    rw [h]
  · intro status out h hne
    rw [h]
    dsimp only
    rw [if_neg hne]
  · intro out h
    rw [h]
    dsimp only
    rw [if_pos rfl]
    refine ⟨rfl, ?_⟩
    simp only [List.length_take, List.length_append, List.length_replicate]
    omega

/-- Counterexample to C4 as stated: with declared size 1 and a decompressor
reaching stream-end after producing zero bytes, `ResourceTableEntry::data`
returns `Ok([0])` — a silently zero-padded buffer whose length was never
produced by the stream — instead of an error; and when the decompressor
succeeds without reaching stream-end the call panics, which is not a
returned error. -/
theorem c4_counterexample :
    (entryData c4inflate c4entry = RRes.ok [0] ∧
      c4inflate (c4entry.data.drop 4) 1 = InflResult.success InflStatus.streamEnd [] ∧
      ([] : List Nat).length ≠ 1) ∧
    (entryData c4inflateBuf c4entry = RRes.crash ∧
      (RRes.crash : RRes (List Nat)) ≠ RRes.fail) := by
  refine ⟨⟨by decide, rfl, by decide⟩, by decide, by decide⟩

/-- Witness for the amended C4 theorem: a stream-end with exactly the
declared one byte of output is returned as-is. -/
theorem c4_witness :
    entryData c4inflateExact c4entry = RRes.ok [7] ∧
    ([7] : List Nat).length = 1 := by
  have h :=
    (c4_decompressed_entry c4inflateExact c4entry rfl 1 [3] (by decide)).2.2 [7] rfl
  exact ⟨h.1.trans (by decide), by decide⟩

/- ------------------------- C10: Pak::data resolution -------------------- -/

theorem find_first_match (p : ResourceTableEntry → Bool)
    (pre : List ResourceTableEntry) (e : ResourceTableEntry)
    (post : List ResourceTableEntry)
    (hpre : ∀ x ∈ pre, p x = false) (he : p e = true) :
    (pre ++ e :: post).find? p = some e := by
  induction pre with
  | nil =>
    rw [List.nil_append]
    exact List.find?_cons_of_pos post he
  | cons a pre ih =>
    rw [List.cons_append,
      List.find?_cons_of_neg _ (by simp [hpre a (List.mem_cons_self a pre)])]
    exact ih (fun x hx => hpre x (List.mem_cons_of_mem a hx))

/-- C10: `Pak::data` returns `Ok(None)` exactly when no resource-table
entry carries the requested id; when entries match, the first one in table
order is the one resolved, so for duplicate ids the earlier entry's bytes
are returned. -/
theorem c10_pak_data_resolution (inflate : List Nat → Nat → InflResult)
    (table : List ResourceTableEntry) (fid : Nat) :
    (pakData inflate table fid = RRes.ok none ↔
      ∀ e ∈ table, e.file_id ≠ fid) ∧
    (∀ pre e post, table = pre ++ e :: post →
      (∀ x ∈ pre, x.file_id ≠ fid) → e.file_id = fid →
      ∀ v, entryData inflate e = RRes.ok v →
        pakData inflate table fid = RRes.ok (some v)) := by
  constructor
  · unfold pakData
    cases hf : table.find? (fun e => e.file_id == fid) with
    | none =>
      dsimp only
      rw [List.find?_eq_none] at hf
      constructor
      · intro _ e he
        simpa using hf e he
      · intro _
        rfl
    | some e =>
      dsimp only
      have hm := List.mem_of_find?_eq_some hf
      have hp := List.find?_some hf
      simp only [beq_iff_eq] at hp
      constructor
      · intro h
        cases hd : entryData inflate e <;> rw [hd] at h <;> simp at h
      · intro h
        exact absurd hp (h e hm)
  · intro pre e post htab hpre he v hv
    subst htab
    unfold pakData
    rw [find_first_match (fun x => x.file_id == fid) pre e post
      (fun x hx => by simp [hpre x hx]) (by simp [he])]
    dsimp only
    rw [hv]

/-- Witness for C10 on a table holding duplicate resource ids: id 5
resolves to the earlier entry's bytes, id 6 to none. -/
theorem c10_witness :
    pakData c10inflate [c10a, c10b] 5 = RRes.ok (some [1, 2]) ∧
    pakData c10inflate [c10a, c10b] 6 = RRes.ok none ∧
    c10a.data ≠ c10b.data :=
  ⟨(c10_pak_data_resolution c10inflate [c10a, c10b] 5).2 [] c10a [c10b] rfl
      (by simp) rfl [1, 2] (by decide),
   (c10_pak_data_resolution c10inflate [c10a, c10b] 6).1.mpr (by decide),
   by decide⟩

/- ------------------------- C6: uv-short section gating ------------------ -/

theorem popParsed_rest {α : Type} (readSec : List Nat → RRes α) :
    ∀ (n : Nat) (secs : List (List Nat)) (acc mats : List α)
      (rest : List (List Nat)),
      popParsed readSec n secs acc = RRes.ok (mats, rest) →
      rest = secs.drop n := by
  intro n
  induction n with
  | zero =>
    intro secs acc mats rest h
    simp only [popParsed] at h
    simp at h
    obtain ⟨-, rfl⟩ := h
    simp
  | succ n ih =>
    intro secs acc mats rest h
    cases secs with
    | nil => simp [popParsed] at h
    | cons d secs =>
      simp only [popParsed] at h
      cases hm : readSec d with
      | ok m =>
        rw [hm] at h
        dsimp only at h
        rw [List.drop_succ_cons]
        exact ih secs (acc ++ [m]) mats rest h
      | fail => rw [hm] at h; simp at h
      | crash => rw [hm] at h; simp at h

theorem drop_eq_cons {α : Type} {l : List α} {n : Nat} {a : α} {t : List α}
    (h : l.drop n = a :: t) : l[n]? = some a ∧ l.drop (n + 1) = t := by
  constructor
  · have h0 := List.getElem?_drop l n 0
    rw [h] at h0
    simpa using h0.symm
  · have h1 : (l.drop n).drop 1 = t := by rw [h]; rfl
    rwa [List.drop_drop] at h1

/-- C6: with header flag bit 4 unset, no stored section is consumed for
the uv-short buffer (it is left empty) and the next section — index
`msc + 4`, after `msc` material sets and the four fixed attribute
buffers — is parsed as the surface-offset table; with the bit set,
exactly one full section (index `msc + 4`) becomes the uv-short buffer
and the offset table is section `msc + 5`. -/
theorem c6_uv_short_gating {α β : Type} (readMat : List Nat → RRes α)
    (readSurf : List Nat → RRes β) (flags msc : Nat)
    (sections : List (List Nat)) (t : CmdlTail α β)
    (h : cmdlTail readMat readSurf flags msc sections = RRes.ok t) :
    (flags &&& 4 = 0 →
      t.uv_short_data = [] ∧
      ∃ d, sections[msc + 4]? = some d ∧
        parseSurfaceOffsets d = some t.surface_end_offsets) ∧
    (flags &&& 4 ≠ 0 →
      sections[msc + 4]? = some t.uv_short_data ∧
      ∃ d, sections[msc + 5]? = some d ∧
        parseSurfaceOffsets d = some t.surface_end_offsets) := by
  unfold cmdlTail at h
  cases hp : popParsed readMat msc sections [] with
  | fail => rw [hp] at h; simp [RRes.bind] at h
  | crash => rw [hp] at h; simp [RRes.bind] at h
  | ok ms =>
    obtain ⟨mats, s0⟩ := ms
    rw [hp] at h
    simp only [RRes.bind] at h
    try dsimp only at h
    have hs0 := popParsed_rest readMat msc sections [] mats s0 hp
    subst hs0
    cases hd0 : sections.drop msc with
    | nil => rw [hd0] at h; simp [popFront, RRes.bind] at h
    | cons pos s1 =>
    rw [hd0] at h
    simp only [popFront, RRes.bind] at h
    try dsimp only at h
    have hD1 := (drop_eq_cons hd0).2
    cases s1 with
    | nil => simp [popFront, RRes.bind] at h
    | cons nrm s2 =>
    simp only [popFront, RRes.bind] at h
    try dsimp only at h
    have hD2 := (drop_eq_cons hD1).2
    cases s2 with
    | nil => simp [popFront, RRes.bind] at h
    | cons clr s3 =>
    simp only [popFront, RRes.bind] at h
    try dsimp only at h
    have hD3 := (drop_eq_cons hD2).2
    cases s3 with
    | nil => simp [popFront, RRes.bind] at h
    | cons uvf s4 =>
    simp only [popFront, RRes.bind] at h
    try dsimp only at h
    have hD4 := (drop_eq_cons hD3).2
    by_cases hf : flags &&& 4 = 0
    · rw [if_neg (not_not_intro hf)] at h
      simp only [RRes.bind] at h
      try dsimp only at h
      cases s4 with
      | nil => simp [popFront, RRes.bind] at h
      | cons offsec s5 =>
      simp only [popFront, RRes.bind] at h
      try dsimp only at h
      have hOidx := (drop_eq_cons hD4).1
      cases ho : parseSurfaceOffsets offsec with
      | none => rw [ho] at h; simp at h
      | some offs =>
      rw [ho] at h
      try dsimp only at h
      cases hps : popParsed readSurf offs.length s5 [] with
      | fail => rw [hps] at h; simp [RRes.bind] at h
      | crash => rw [hps] at h; simp [RRes.bind] at h
      | ok ss =>
      rw [hps] at h
      simp only [RRes.bind] at h
      try dsimp only at h
      simp only [RRes.ok.injEq] at h
      subst h
      refine ⟨fun _ => ⟨rfl, offsec, hOidx, ho⟩, fun hne => absurd hf hne⟩
    · rw [if_pos hf] at h
      cases s4 with
      | nil => simp [popFront, RRes.bind] at h
      | cons uvs s5 =>
      simp only [popFront, RRes.bind] at h
      try dsimp only at h
      have hUidx := (drop_eq_cons hD4).1
      have hD5 := (drop_eq_cons hD4).2
      cases s5 with
      | nil => simp [popFront, RRes.bind] at h
      | cons offsec s6 =>
      simp only [popFront, RRes.bind] at h
      try dsimp only at h
      have hOidx := (drop_eq_cons hD5).1
      cases ho : parseSurfaceOffsets offsec with
      | none => rw [ho] at h; simp at h
      | some offs =>
      rw [ho] at h
      try dsimp only at h
      cases hps : popParsed readSurf offs.length s6 [] with
      | fail => rw [hps] at h; simp [RRes.bind] at h
      | crash => rw [hps] at h; simp [RRes.bind] at h
      | ok ss =>
      rw [hps] at h
      simp only [RRes.bind] at h
      try dsimp only at h
      simp only [RRes.ok.injEq] at h
      subst h
      refine ⟨fun h0 => absurd h0 hf, fun _ => ⟨hUidx, offsec, hOidx, ho⟩⟩

/-- Witness for C6 at concrete section lists, flag bit 4 unset and set. -/
theorem c6_witness :
    ((CmdlTail.uv_short_data c6t0 = [] ∧
      ∃ d, c6secs[1 + 4]? = some d ∧
        parseSurfaceOffsets d = some (CmdlTail.surface_end_offsets c6t0)) ∧
     (c6secs2[1 + 4]? = some (CmdlTail.uv_short_data c6t1) ∧
      ∃ d, c6secs2[1 + 5]? = some d ∧
        parseSurfaceOffsets d = some (CmdlTail.surface_end_offsets c6t1))) :=
  ⟨(c6_uv_short_gating (fun d => RRes.ok d) (fun d => RRes.ok d) 0 1 c6secs c6t0
      (by decide)).1 (by decide),
   (c6_uv_short_gating (fun d => RRes.ok d) (fun d => RRes.ok d) 4 1 c6secs2 c6t1
      (by decide)).2 (by decide)⟩

/- ------------------------- C7: vertex deduplication --------------------- -/

theorem eqBits_refl (v : StaticVertex) : StaticVertex.eqBits v v = true := by
  simp [StaticVertex.eqBits]

theorem eqBits_symm {u v : StaticVertex} (h : StaticVertex.eqBits u v = true) :
    StaticVertex.eqBits v u = true := by
  simp only [StaticVertex.eqBits, Bool.and_eq_true, beq_iff_eq] at h ⊢
  omega

theorem eqBits_trans {u v w : StaticVertex}
    (h1 : StaticVertex.eqBits u v = true)
    (h2 : StaticVertex.eqBits v w = true) :
    StaticVertex.eqBits u w = true := by
  simp only [StaticVertex.eqBits, Bool.and_eq_true, beq_iff_eq] at h1 h2 ⊢
  omega

theorem findIdx_append_of_any {α : Type} {p : α → Bool} (l1 l2 : List α)
    (h : l1.any p = true) : (l1 ++ l2).findIdx p = l1.findIdx p := by
  induction l1 with
  | nil => simp at h
  | cons a l1 ih =>
    rw [List.cons_append, List.findIdx_cons, List.findIdx_cons]
    cases ha : p a with
    | true => rfl
    | false =>
      simp only [cond_false]
      simp only [List.any_cons, ha, Bool.false_or] at h
      rw [ih h]

theorem findIdx_append_of_not_any {α : Type} {p : α → Bool} (l1 l2 : List α)
    (h : l1.any p = false) :
    (l1 ++ l2).findIdx p = l1.length + l2.findIdx p := by
  induction l1 with
  | nil => simp
  | cons a l1 ih =>
    simp only [List.any_cons, Bool.or_eq_false_iff] at h
    rw [List.cons_append, List.findIdx_cons, h.1]
    simp only [cond_false, List.length_cons]
    rw [ih h.2]
    omega

theorem mapOf_append (xs : List StaticVertex) (v : StaticVertex) :
    ∀ k : Nat, mapOf (xs ++ [v]) k = mapOf xs k ++ [(v, k + xs.length)] := by
  induction xs with
  | nil => intro k; simp [mapOf]
  | cons a xs ih =>
    intro k
    have hk : k + 1 + xs.length = k + (xs.length + 1) := by omega
    rw [List.cons_append]
    simp only [mapOf]
    rw [ih (k + 1), hk]
    simp [List.length_cons]

theorem mapGet_mapOf (v : StaticVertex) :
    ∀ (attrs : List StaticVertex) (k : Nat),
      mapGet (mapOf attrs k) v =
        if attrs.any (fun u => StaticVertex.eqBits u v) = true
        then some (k + attrs.findIdx (fun u => StaticVertex.eqBits u v))
        else none := by
  intro attrs
  induction attrs with
  | nil => intro k; simp [mapGet, mapOf]
  | cons a attrs ih =>
    intro k
    simp only [mapOf, mapGet]
    cases ha : StaticVertex.eqBits a v with
    | true =>
      rw [List.find?_cons_of_pos _ (by simpa using ha)]
      simp [List.any_cons, ha, List.findIdx_cons]
    | false =>
      rw [List.find?_cons_of_neg _ (by simpa using ha)]
      have hr := ih (k + 1)
      simp only [mapGet] at hr
      rw [hr]
      simp only [List.any_cons, ha, Bool.false_or, List.findIdx_cons, cond_false]
      by_cases h2 : attrs.any (fun u => StaticVertex.eqBits u v) = true
      · rw [if_pos h2, if_pos h2]
        congr 1
        omega
      · rw [if_neg h2, if_neg h2]

theorem dedup_step_inv {processed : List StaticVertex} {s : DedupState}
    {v : StaticVertex} {s1 : DedupState}
    (hI : DedupInv processed s) (h : dedup_step s v = some s1) :
    DedupInv (processed ++ [v]) s1 := by
  obtain ⟨hmap, hcount, hsat, hbuf⟩ := hI
  unfold dedup_step at h
  rw [hmap, mapGet_mapOf] at h
  by_cases hany : s.attrs.any (fun u => StaticVertex.eqBits u v) = true
  · rw [if_pos hany] at h
    dsimp only at h
    simp only [Option.some.injEq] at h
    subst h
    refine ⟨rfl, hcount, ?_, ?_⟩
    · intro w hw
      rcases List.mem_append.mp hw with hw | hw
      · exact hsat w hw
      · simp only [List.mem_singleton] at hw
        subst hw
        exact hany
    · dsimp only
      rw [hbuf, List.map_append]
      simp
  · rw [if_neg hany] at h
    dsimp only at h
    by_cases hlt : s.vertex_count < 65536
    · rw [if_pos hlt] at h
      simp only [Option.some.injEq] at h
      subst h
      have hanyF : s.attrs.any (fun u => StaticVertex.eqBits u v) = false := by
        simpa using hany
      refine ⟨?_, ?_, ?_, ?_⟩
      · dsimp only
        rw [mapOf_append, hcount]
        simp
      · dsimp only
        rw [hcount]
        simp
      · intro w hw
        dsimp only
        rcases List.mem_append.mp hw with hw | hw
        · simp [List.any_append, hsat w hw]
        · simp only [List.mem_singleton] at hw
          subst hw
          simp [List.any_append, eqBits_refl]
      · dsimp only
        rw [hbuf, List.map_append]
        congr 1
        · apply List.map_congr_left
          intro w hw
          exact (findIdx_append_of_any s.attrs [v] (hsat w hw)).symm
        · simp only [List.map_cons, List.map_nil]
          rw [findIdx_append_of_not_any s.attrs [v] hanyF]
          simp [List.findIdx_cons, eqBits_refl, hcount]
    · rw [if_neg hlt] at h
      simp at h

theorem dedup_run_inv :
    ∀ (vs processed : List StaticVertex) (s s2 : DedupState),
      DedupInv processed s → dedup_run vs s = some s2 →
      DedupInv (processed ++ vs) s2 := by
  intro vs
  induction vs with
  | nil =>
    intro processed s s2 hI h
    simp only [dedup_run, Option.some.injEq] at h
    subst h
    simpa using hI
  | cons v vs ih =>
    intro processed s s2 hI h
    simp only [dedup_run] at h
    cases hst : dedup_step s v with
    | none => rw [hst] at h; simp at h
    | some s1 =>
      rw [hst] at h
      dsimp only at h
      have hI1 := dedup_step_inv hI hst
      have hI2 := ih (processed ++ [v]) s1 s2 hI1 h
      simpa [List.append_assoc] using hI2

theorem dedup_run_append (xs ys : List StaticVertex) :
    ∀ s : DedupState,
      dedup_run (xs ++ ys) s =
        match dedup_run xs s with
        | none => none
        | some s2 => dedup_run ys s2 := by
  induction xs with
  | nil => intro s; simp [dedup_run]
  | cons v xs ih =>
    intro s
    simp only [List.cons_append, dedup_run]
    cases dedup_step s v with
    | none => rfl
    | some s1 => exact ih s1

theorem dedup_run_saturated :
    ∀ (vs : List StaticVertex) (s : DedupState),
      s.map = mapOf s.attrs 0 →
      (∀ w ∈ vs, s.attrs.any (fun u => StaticVertex.eqBits u w) = true) →
      dedup_run vs s = some ⟨s.vertex_count, s.map, s.attrs,
        s.index_buffer ++
          vs.map (fun w => s.attrs.findIdx (fun u => StaticVertex.eqBits u w))⟩ := by
  intro vs
  induction vs with
  | nil =>
    intro s hmap _
    simp [dedup_run]
  | cons v vs ih =>
    intro s hmap hsat
    simp only [dedup_run, dedup_step]
    rw [hmap, mapGet_mapOf, if_pos (hsat v (List.mem_cons_self v vs))]
    dsimp only
    rw [ih ⟨s.vertex_count, mapOf s.attrs 0, s.attrs,
      s.index_buffer ++ [0 + s.attrs.findIdx (fun u => StaticVertex.eqBits u v)]⟩
      rfl (fun w hw => hsat w (List.mem_cons_of_mem v hw))]
    simp [List.append_assoc]

theorem any_findIdx_sat {α : Type} {p : α → Bool} :
    ∀ l : List α, l.any p = true →
      ∃ a, l[l.findIdx p]? = some a ∧ p a = true := by
  intro l
  induction l with
  | nil => simp
  | cons x l ih =>
    intro h
    by_cases hx : p x = true
    · refine ⟨x, ?_, hx⟩
      simp [List.findIdx_cons, hx]
    · have hx2 : p x = false := by simpa using hx
      simp only [List.any_cons, hx2, Bool.false_or] at h
      obtain ⟨a, ha1, ha2⟩ := ih h
      refine ⟨a, ?_, ha2⟩
      rw [List.findIdx_cons, hx2]
      simpa using ha1

theorem findIdx_eq_iff (attrs : List StaticVertex) (v w : StaticVertex)
    (hv : attrs.any (fun u => StaticVertex.eqBits u v) = true)
    (hw : attrs.any (fun u => StaticVertex.eqBits u w) = true) :
    (attrs.findIdx (fun u => StaticVertex.eqBits u v) =
      attrs.findIdx (fun u => StaticVertex.eqBits u w)) ↔
    StaticVertex.eqBits v w = true := by
  constructor
  · intro h
    obtain ⟨a, ha1, ha2⟩ := any_findIdx_sat attrs hv
    obtain ⟨b, hb1, hb2⟩ := any_findIdx_sat attrs hw
    rw [h] at ha1
    rw [ha1] at hb1
    simp only [Option.some.injEq] at hb1
    subst hb1
    exact eqBits_trans (eqBits_symm ha2) hb2
  · intro h
    have hfun : (fun u => StaticVertex.eqBits u v)
        = (fun u => StaticVertex.eqBits u w) := by
      funext u
      cases hu : StaticVertex.eqBits u v with
      | true => exact (eqBits_trans hu h).symm
      | false =>
        cases hu2 : StaticVertex.eqBits u w with
        | true => exact absurd (eqBits_trans hu2 (eqBits_symm h)) (by simp [hu])
        | false => rfl
    rw [hfun]

/-- C7: the per-surface dedup loop of `make_static_gltf_document` is
bit-exact and idempotent: in a successful run from the empty per-surface
state, two index-buffer entries coincide exactly when the corresponding
input vertices agree on every field's f32 bit pattern (so `0.0` vs `-0.0`
stay distinct), and feeding the same vertex run twice keeps the
distinct-vertex count, map and attribute buffer unchanged while appending
an identical copy of the index buffer. -/
theorem c7_dedup (vs : List StaticVertex) (s : DedupState)
    (h : dedup_run vs ⟨0, [], [], []⟩ = some s) :
    (s.index_buffer.length = vs.length ∧
      ∀ i j, (hi : i < vs.length) → (hj : j < vs.length) →
        (s.index_buffer[i]? = s.index_buffer[j]? ↔
          StaticVertex.eqBits vs[i] vs[j] = true)) ∧
    dedup_run (vs ++ vs) ⟨0, [], [], []⟩ =
      some ⟨s.vertex_count, s.map, s.attrs,
        s.index_buffer ++ s.index_buffer⟩ := by
  have hI0 : DedupInv [] ⟨0, [], [], []⟩ := by
    refine ⟨rfl, rfl, ?_, rfl⟩
    intro w hw
    simp at hw
  have hI := dedup_run_inv vs [] ⟨0, [], [], []⟩ s hI0 h
  rw [List.nil_append] at hI
  obtain ⟨hmap, hcount, hsat, hbuf⟩ := hI
  constructor
  · constructor
    · rw [hbuf]
      simp
    · intro i j hi hj
      rw [hbuf, List.getElem?_map, List.getElem?_map,
        List.getElem?_eq_getElem hi, List.getElem?_eq_getElem hj]
      simp only [Option.map_some']
      rw [Option.some.injEq]
      exact findIdx_eq_iff s.attrs vs[i] vs[j]
        (hsat vs[i] (List.getElem_mem hi))
        (hsat vs[j] (List.getElem_mem hj))
  · rw [dedup_run_append vs vs, h]
    dsimp only
    rw [dedup_run_saturated vs s hmap hsat, ← hbuf]

/-- Witness for C7: the run zero-vertex, negative-zero-vertex, zero-vertex
keeps the two zero vertices distinct and reuses index 0 for the repeat;
doubling the run appends an identical index buffer. -/
theorem c7_witness :
    c7s.index_buffer = [0, 1, 0] ∧
    StaticVertex.eqBits c7v0 c7vneg0 = false ∧
    c7s.index_buffer[0]? ≠ c7s.index_buffer[1]? ∧
    dedup_run (c7vs ++ c7vs) ⟨0, [], [], []⟩ =
      some ⟨c7s.vertex_count, c7s.map, c7s.attrs,
        c7s.index_buffer ++ c7s.index_buffer⟩ := by
  refine ⟨by decide, by decide, ?_, (c7_dedup c7vs c7s (by decide)).2⟩
  intro he
  exact absurd
    (((c7_dedup c7vs c7s (by decide)).1.2 0 1 (by decide) (by decide)).mp he)
    (by decide)

/-- Witness for C8 at a concrete input: 4 bytes available out of 5, a zero
terminator after two ASCII bytes, a non-ASCII byte after the terminator. -/
theorem c8_witness :
    4 ≤ ([72, 105, 0, 200, 7] : List Nat).length ∧
      read_fixed_capacity_ascii_c_string 4 [72, 105, 0, 200, 7] =
        (if (([72, 105, 0, 200, 7] : List Nat).take 4).takeWhile (fun c => c != 0)
              |>.all (fun b => b < 128)
         then CStrResult.ok ((([72, 105, 0, 200, 7] : List Nat).take 4).takeWhile (fun c => c != 0))
            (([72, 105, 0, 200, 7] : List Nat).drop 4)
         else CStrResult.nonAscii (([72, 105, 0, 200, 7] : List Nat).drop 4)) :=
  ⟨by decide, c8_read_fixed_capacity 4 [72, 105, 0, 200, 7] (by decide)⟩

end MP
